import Mathlib

/-!
Verification of the CSV/DL7/MkVI/Seabear import decoders (core/import-csv.cpp).

The byte buffers the C code works on are modelled as `List Char`; a C pointer
into a NUL-terminated buffer is modelled as the suffix of the buffer starting
at that pointer.  External primitives that are part of this repository but not
of the imported sources (monthname, utc_mktime, unit conversions, the sample
and event stores of the dive record) are modelled from the spec and say so in
their doc comments.
-/

namespace Subsurface

/-- Byte strings: the C code's buffers, as lists of characters. -/
abbrev Str := List Char

/-! ## Low-level scanning primitives (strstr, strchr, character classes) -/

/-- Models C `strstr`: splits `s` at the first occurrence of `pat`, returning
the part before the match and the suffix starting at the match.  `none` when
`pat` does not occur (for nonempty `pat`; `strstr` with an empty needle
returns its argument, matched here by the first branch). -/
def substrSplit (pat : Str) : Str → Option (Str × Str)
  | [] => if pat.isPrefixOf [] then some ([], []) else none
  | c :: t =>
    if pat.isPrefixOf (c :: t) then some ([], c :: t)
    else (substrSplit pat t).map (fun p => (c :: p.1, p.2))

/-- Models C `strchr`: the suffix of `s` starting at the first occurrence of
`c`, or `none`. -/
def strchrSuffix (s : Str) (c : Char) : Option Str :=
  match s with
  | [] => none
  | a :: t => if a = c then some (a :: t) else strchrSuffix t c

/-! ## Markup Wrapper (try_to_xslt_open_csv) -/

/-- One step of the backward fill of `try_to_xslt_open_csv`: for the source
byte `c` the bytes it leaves in the output, in buffer order (the C code writes
them back to front: `';' 'p' 'm' 'a'` and then the byte itself). -/
def escAmp (c : Char) : Str := if c = '&' then ['&', 'a', 'm', 'p', ';'] else [c]

/-- Models the backward-fill loop of `try_to_xslt_open_csv`: `rev` is the part
of the original content still to the left of the read cursor, in reverse
(the loop walks `ptr_in` from the old end down to the start), `out` is
everything already written at the tail of the buffer. -/
def fillLoop : Str → Str → Str
  | [], out => out
  | c :: rest, out => fillLoop rest (escAmp c ++ out)

/-- Models the whole in-place rewrite of `try_to_xslt_open_csv` on a nonempty
content `s`: end tag written first at the very end, then the escaped content
filled backward, then the start tag. -/
def xsltWrapCore (s tag : Str) : Str :=
  ('<' :: tag ++ ['>']) ++ fillLoop s.reverse ('<' :: '/' :: tag ++ ['>'])

/-- Count of ampersand bytes in a buffer (the `amp` counting loop). -/
def countAmp (s : Str) : Nat := s.count '&'

/-- The exact size `try_to_xslt_open_csv` grows the buffer to:
`mem.size() + tag_name_size * 2 + 5 + amp * 4`. -/
def wrapTargetSize (s tag : Str) : Nat :=
  s.length + 2 * tag.length + 5 + 4 * countAmp s

/-- Where the write cursor `ptr_out` stands, relative to the start of the
buffer, after the backward fill: the resized length minus the number of bytes
written.  The source logs an "off by" diagnostic exactly when this is not 0. -/
def ptrOutFinal (s tag : Str) : Int :=
  (wrapTargetSize s tag : Int) - ((xsltWrapCore s tag).length : Int)

/-- Models `try_to_xslt_open_csv(filename, mem, tag)`.  `mem` is the buffer
passed in, `fileContent` the content of the file it falls back to reading when
`mem` is empty (the read itself is assumed to succeed).  `some out` models a
`0` (success) return with `out` the resulting buffer; an empty buffer and an
empty file yield success with no wrapped output. -/
def try_to_xslt_open_csv (mem fileContent tag : Str) : Option Str :=
  let m := if mem.isEmpty then fileContent else mem
  if m.isEmpty then some []
  else some (xsltWrapCore m tag)

/-- The escaping transform as the spec words it: every `'&'` becomes
`"&amp;"`, every other byte is kept unchanged.  Written independently of the
backward fill so that the wrapper can be proved against it. -/
def escapeSpec (s : Str) : Str := s.flatMap escAmp

/-! ## Tokenizer (parse_csv_line) -/

/-- Models the field-splitting loop of `parse_csv_line` on the part of the
line that follows the leading delimiter: repeated `memchr` to the next
delimiter; the final field is emitted even with no trailing delimiter, and a
field start that already sits at the line end emits nothing. -/
def splitFields (delim : Char) : Str → List Str
  | [] => []
  | c :: rest =>
    if c = delim then [] :: splitFields delim rest
    else
      match splitFields delim rest with
      | [] => [[c]]
      | f :: fs => (c :: f) :: fs

/-- The line span `parse_csv_line` works on: the bytes before the first
newline marker, or the whole remaining buffer when no newline follows. -/
def lineOf (NL ptr : Str) : Str :=
  match substrSplit NL ptr with
  | some p => p.1
  | none => ptr

/-- Models `parse_csv_line(ptr, NL, delim, fields)`: `none` is the
`report_error` return for a missing leading delimiter; `some (fields, rest)`
returns the fields and the updated cursor (just past the line's newline
marker, or the empty suffix at end of buffer). -/
def parse_csv_line (ptr NL : Str) (delim : Char) : Option (List Str × Str) :=
  let lineRest : Str × Str :=
    match substrSplit NL ptr with
    | some p => (p.1, p.2.drop NL.length)
    | none => (ptr, [])
  match lineRest.1 with
  | [] => none
  | c :: lrest =>
    if c = delim then some (splitFields delim lrest, lineRest.2) else none

/-! ## XML parameter sets (xmlparams, external interface) -/

/-- Modelled from the spec: the canonical parameter set is an ordered mapping
from parameter name to string value; `add` appends, `resize` truncates,
`set_value` overwrites in place. -/
abbrev Params := List (String × Str)

/-- Models `xml_params_add`. -/
def xml_params_add (ps : Params) (k : String) (v : Str) : Params := ps ++ [(k, v)]

/-- Models `xml_params_resize` (truncation back to a base size). -/
def xml_params_resize (ps : Params) (n : Nat) : Params := ps.take n

/-- Models `xml_params_set_value`. -/
def xml_params_set_value (ps : Params) (i : Nat) (v : Str) : Params :=
  match ps.get? i with
  | some kv => ps.set i (kv.1, v)
  | none => ps

/-- Models `xml_params_get_value`. -/
def xml_params_get_value (ps : Params) (i : Nat) : Str :=
  ((ps.get? i).map Prod.snd).getD []

/-! ## Interchange-segment decoder (DAN / DL7) -/

/-- Models `parse_dan_new_line`: advance the cursor just past the next
newline marker, `none` when no newline follows. -/
def parse_dan_new_line (NL ptr : Str) : Option Str :=
  (substrSplit NL ptr).map (fun p => p.2.drop NL.length)

/-- Models `parse_dan_fields`: one pipe-delimited line parsed into a fixed
dictionary of `n` slots; more raw fields than slots is a parse failure, and
unfilled trailing slots keep their empty default. -/
def parse_dan_fields (NL : Str) (n : Nat) (ptr : Str) : Option (List Str × Str) :=
  match parse_csv_line ptr NL '|' with
  | none => none
  | some (fs, rest) =>
    if n < fs.length then none
    else some (fs ++ List.replicate (n - fs.length) [], rest)

/-- Models `parse_dan_zdh`: skip the leading `ZDH`, parse the 10-slot field
dictionary, then add the date (first 8 digits of the leave-surface field, when
present), the `1`-prefixed time (when 14 digits are present), the air
temperature and the internal dive sequence number to the parameter set. -/
def parse_dan_zdh (NL : Str) (params : Params) (ptr : Str) : Option (Params × Str) :=
  match parse_dan_fields NL 10 (ptr.drop 3) with
  | none => none
  | some (fields, rest) =>
    let leaveSurface := fields.getD 4 []
    let params :=
      if 8 ≤ leaveSurface.length then xml_params_add params "date" (leaveSurface.take 8)
      else params
    let params :=
      if 14 ≤ leaveSurface.length then
        xml_params_add params "time" ('1' :: (leaveSurface.drop 8).take 6)
      else params
    let params := xml_params_add params "airTemp" (fields.getD 5 [])
    let params := xml_params_add params "diveNro" (fields.getD 1 [])
    some (params, rest)

/-- Models `parse_dan_zdt`: skip the leading `ZDT`, parse the 6-slot field
dictionary, add the minimum water temperature to the parameter set. -/
def parse_dan_zdt (NL : Str) (params : Params) (ptr : Str) : Option (Params × Str) :=
  match parse_dan_fields NL 6 (ptr.drop 3) with
  | none => none
  | some (fields, rest) =>
    some (xml_params_add params "waterTemp" (fields.getD 4 []), rest)

/-- Models `parse_dan_zdp`.  Fails (`none`) when the cursor does not start
with `ZDP{`, when the profile is present but empty (`ptr[4] == '}'`, the
fatal "No dive profile found" error), when no newline follows the opening
line, or when no closing `ZDP}` marker is found.  On success returns the
verbatim interior (from the line after `ZDP{` up to the closing marker) and
the cursor past the closing marker's line — `none` for that cursor models the
C code's NULL `ptr` when the `ZDP}` line has no trailing newline (the caller
would then read through a NULL pointer; see `danLoop`).  `ptr[4]` of a
4-byte-long buffer is the NUL terminator in C, modelled by the `'\x00'`
default. -/
def parse_dan_zdp (NL ptr : Str) : Option (Str × Option Str) :=
  if ¬ ("ZDP\x7b".toList.isPrefixOf ptr) then none
  else if ptr.getD 4 '\x00' = '}' then none
  else
    match parse_dan_new_line NL ptr with
    | none => none
    | some p1 =>
      match substrSplit "ZDP\x7d".toList p1 with
      | none => none
      | some (before, endp) => some (before, parse_dan_new_line NL endp)

/-- Models the inner scan loop of `parse_dan_format` that walks line by line
until the cursor stands on a `ZDH` marker; running out of newlines is the
"Expected ZDH header not found" error.  The loop is driven by a fuel that its
caller sets to the cursor length plus one; every iteration drops at least one
byte (`parse_dan_new_line_lt`), so the fuel never runs out
(`danFindZDH_fuel`). -/
def danFindZDH (NL : Str) : Nat → Str → Option Str
  | 0, _ => none
  | fuel + 1, ptr =>
    if "ZDH".toList.isPrefixOf ptr then some ptr
    else
      match parse_dan_new_line NL ptr with
      | none => none
      | some p => danFindZDH NL fuel p

/-- Models the per-dive loop of `parse_dan_format`.  `mem` is the whole file
content (needed because `try_to_xslt_open_csv` re-reads the file when handed
an empty payload), `base` the parameter set the loop truncates back to before
each dive.  `acc` accumulates, most recent first, the pairs
(wrapped payload, parameter set) handed to `parse_xml_buffer`; success
returns them in order.  The fuel is set by `parse_dan_format` to the buffer
length plus one; every dive consumes at least one byte of the cursor, so the
fuel never runs out (`danLoop_fuel`).  When `parse_dan_zdp` ends with a NULL
cursor the C code would pass NULL to `strncmp` (undefined behaviour); the
model makes that path a decode failure, which is in any case not a success. -/
def danLoop (NL mem : Str) (base : Params) :
    Nat → Str → List (Str × Params) → Option (List (Str × Params))
  | 0, _, _ => none
  | fuel + 1, ptr, acc =>
    if ptr.isEmpty then some acc.reverse
    else
      match danFindZDH NL (ptr.length + 1) ptr with
      | none => none
      | some ptrZ =>
        match parse_dan_zdh NL (xml_params_resize base base.length) ptrZ with
        | none => none
        | some (params1, ptr1) =>
          match (if "ZDP".toList.isPrefixOf ptr1 then parse_dan_zdp NL ptr1
                 else some ([], some ptr1)) with
          | none => none
          | some (memcsv, optPtr2) =>
            match optPtr2 with
            | none => none
            | some ptr2 =>
              if "ZDT".toList.isPrefixOf ptr2 then
                match parse_dan_zdt NL params1 ptr2 with
                | none => none
                | some (params2, ptr3) =>
                  match try_to_xslt_open_csv memcsv mem "csv".toList with
                  | none => none
                  | some payload => danLoop NL mem base fuel ptr3 ((payload, params2) :: acc)
              else none

/-- Models `parse_dan_format` (minus the file read, assumed to succeed):
newline detection — note the scan cursor starts at the first newline found,
not at the start of the buffer — then the per-dive loop.  `none` models a
negative (error) return; `some hands` models success, with `hands` the
ordered list of (wrapped payload, parameter set) pairs handed to the
transform engine. -/
def parse_dan_format (mem : Str) (params : Params) : Option (List (Str × Params)) :=
  match substrSplit "\r\n".toList mem with
  | some p => danLoop "\r\n".toList mem params (mem.length + 1) p.2 []
  | none =>
    match substrSplit "\n".toList mem with
    | some p => danLoop "\n".toList mem params (mem.length + 1) p.2 []
    | none => none

/-! ## Numeric scanning primitives (strtol, sscanf "%d,%d,%d", strtod) -/

/-- The whitespace class `isspace` of the C locale. -/
def isSpaceC (c : Char) : Bool :=
  c = ' ' ∨ c = '\t' ∨ c = '\n' ∨ c = '\r' ∨ c = '\x0b' ∨ c = '\x0c'

/-- Value of a digit run. -/
def natOfDigits (ds : Str) : Nat :=
  ds.foldl (fun acc c => 10 * acc + (c.toNat - '0'.toNat)) 0

/-- Models one `%d` conversion (also the numeric part of `strtol`): skip
whitespace, optional sign, at least one digit; `none` on matching failure
(then `strtol` reports 0 with the end pointer at the start). -/
def scanInt (s : Str) : Option (Int × Str) :=
  let s1 := s.dropWhile isSpaceC
  let signRest : Bool × Str :=
    match s1 with
    | '-' :: t => (true, t)
    | '+' :: t => (false, t)
    | _ => (false, s1)
  let ds := signRest.2.takeWhile Char.isDigit
  if ds.isEmpty then none
  else
    some ((if signRest.1 then -(natOfDigits ds : Int) else (natOfDigits ds : Int)),
          signRest.2.drop ds.length)

/-- Models `strtol(s, &end, 10)`: the value and the end pointer (the original
pointer when no conversion was performed). -/
def strtol (s : Str) : Int × Str :=
  match scanInt s with
  | some r => r
  | none => (0, s)

/-- Models `sscanf(s, "%d,%d,%d", ...)`: the conversion count (−1 for `EOF`,
else 0–3) and the values converted; the literal commas must match exactly. -/
def sscanf3 (s : Str) : Int × (Option Int × Option Int × Option Int) :=
  match scanInt s with
  | none => (if (s.dropWhile isSpaceC).isEmpty then -1 else 0, (none, none, none))
  | some (a, r1) =>
    match r1 with
    | ',' :: r2 =>
      (match scanInt r2 with
       | none => (1, (some a, none, none))
       | some (b, r3) =>
         match r3 with
         | ',' :: r4 =>
           (match scanInt r4 with
            | none => (2, (some a, some b, none))
            | some (c, _) => (3, (some a, some b, some c)))
         | _ => (2, (some a, some b, none)))
    | _ => (1, (some a, none, none))

/-- Models the literal-separator step of an `sscanf` format. -/
def scanSep (c : Char) (s : Str) : Option Str :=
  match s with
  | a :: t => if a = c then some t else none
  | [] => none

/-- Models `sscanf(s, "%d:%d:%d", ...)` requiring all three conversions
(`parse_date` rejects anything less). -/
def sscanf_hms (s : Str) : Option (Int × Int × Int) := do
  let (h, r1) ← scanInt s
  let r2 ← scanSep ':' r1
  let (mi, r3) ← scanInt r2
  let r4 ← scanSep ':' r3
  let (sec, _) ← scanInt r4
  some (h, mi, sec)

/-- Models `sscanf(s, "%d-%d-%d %d:%d:%d", ...)` requiring all six
conversions (the MkVI "Dive started at" timestamp). -/
def sscanf_mkvi_date (s : Str) : Option (Int × Int × Int × Int × Int × Int) := do
  let (y, r1) ← scanInt s
  let r2 ← scanSep '-' r1
  let (m, r3) ← scanInt r2
  let r4 ← scanSep '-' r3
  let (d, r5) ← scanInt r4
  let (hh, r6) ← scanInt r5
  let r7 ← scanSep ':' r6
  let (mm, r8) ← scanInt r7
  let r9 ← scanSep ':' r8
  let (ss, _) ← scanInt r9
  some (y, m, d, hh, mm, ss)

/-- Exact fractions standing in for the C `double` values the decoders carry
(every number the decoders actually feed through is decimal text or an `int`,
both exactly representable; the denominator is positive by construction). -/
structure Frac where
  num : Int
  den : Int
  deriving DecidableEq

/-- The `double` an `int` converts to. -/
def Frac.ofInt (n : Int) : Frac := ⟨n, 1⟩

/-- Product of two fractions (no normalization; values only, never compared
across representations). -/
def Frac.mul (a b : Frac) : Frac := ⟨a.num * b.num, a.den * b.den⟩

/-- Difference of two fractions. -/
def Frac.sub (a b : Frac) : Frac := ⟨a.num * b.den - b.num * a.den, a.den * b.den⟩

/-- Models `lrint` on an exact fraction: nearest integer,
`floor(x + 1/2)` (the half-to-even behaviour of the C call differs only on
exact halves, which the decoders' inputs never produce). -/
def Frac.lrint (x : Frac) : Int := (2 * x.num + x.den).fdiv (2 * x.den)

/-- Models `strtod(s, &end)` for the plain decimal forms the samples use:
whitespace, optional sign, digits with an optional fractional part (at least
one digit overall).  Exponents, hex floats, inf/nan and the out-of-range
`errno` flagging of the C function are outside this model.  `none` models
`end == s` (no conversion). -/
def strtodM (s : Str) : Option (Frac × Str) :=
  let s1 := s.dropWhile isSpaceC
  let signRest : Bool × Str :=
    match s1 with
    | '-' :: t => (true, t)
    | '+' :: t => (false, t)
    | _ => (false, s1)
  let d1 := signRest.2.takeWhile Char.isDigit
  let s3 := signRest.2.drop d1.length
  let fracRest : Str × Str :=
    match s3 with
    | '.' :: t => (t.takeWhile Char.isDigit, t.dropWhile Char.isDigit)
    | _ => ([], s3)
  if d1.isEmpty ∧ fracRest.1.isEmpty then none
  else
    let mag : Frac :=
      ⟨(natOfDigits d1 : Int) * (10 ^ fracRest.1.length : Nat) + (natOfDigits fracRest.1 : Int),
       ((10 : Nat) ^ fracRest.1.length : Nat)⟩
    some ((if signRest.1 then ⟨-mag.num, mag.den⟩ else mag), fracRest.2)

/-! ## Unit/sample mapper (add_sample_data) and the sample/event model -/

/-- The `csv_format` tag enumeration of the source. -/
inductive csv_format where
  | CSV_DEPTH | CSV_TEMP | CSV_PRESSURE
  | POSEIDON_DEPTH | POSEIDON_TEMP | POSEIDON_SETPOINT
  | POSEIDON_SENSOR1 | POSEIDON_SENSOR2 | POSEIDON_NDL | POSEIDON_CEILING
  deriving DecidableEq

/-- Modelled from the spec: one canonical sample; `prepare_sample` appends a
fresh sample whose fields are all unset (`none`), and the decoders then write
individual fields.  `time` is in seconds, depths in mm, temperatures in
millikelvin, pressures/setpoints in mbar, NDL in seconds. -/
structure PSample where
  time : Int := 0
  depth : Option Int := none
  temperature : Option Int := none
  setpoint : Option Int := none
  o2sensor0 : Option Int := none
  o2sensor1 : Option Int := none
  ndl : Option Int := none
  stopdepth : Option Int := none
  pressure0 : Option Int := none
  pressure1 : Option Int := none
  deriving DecidableEq

/-- Modelled from the spec: feet→millimetres, `lrint(ft * 304.8)`. -/
def feet_to_mm (v : Frac) : Int := (v.mul ⟨3048, 10⟩).lrint

/-- Modelled from the spec: Fahrenheit→millikelvin. -/
def F_to_mkelvin (v : Frac) : Int := ((v.sub ⟨32, 1⟩).mul ⟨5000, 9⟩).lrint + 273150

/-- Modelled from the spec: PSI→millibar. -/
def psi_to_mbar (v : Frac) : Int := (v.mul ⟨689476, 10000⟩).lrint

/-- Modelled from the spec: Celsius→millikelvin. -/
def C_to_mkelvin (v : Frac) : Int := (v.mul ⟨1000, 1⟩).lrint + 273150

/-- Models `add_sample_data` (the Unit/Sample Mapper): writes the converted
value into the field selected by the format tag.  The C code computes the
conversions in `double` and rounds with `lrint`; on the integer and short
decimal inputs the decoders feed it the exact fraction model coincides. -/
def add_sample_data (s : PSample) (type : csv_format) (val : Frac) : PSample :=
  match type with
  | .CSV_DEPTH => { s with depth := some (feet_to_mm val) }
  | .CSV_TEMP => { s with temperature := some (F_to_mkelvin val) }
  | .CSV_PRESSURE => { s with pressure0 := some (psi_to_mbar (val.mul ⟨4, 1⟩)) }
  | .POSEIDON_DEPTH => { s with depth := some (((val.mul ⟨1, 2⟩).mul ⟨1000, 1⟩).lrint) }
  | .POSEIDON_TEMP => { s with temperature := some (C_to_mkelvin (val.mul ⟨1, 5⟩)) }
  | .POSEIDON_SETPOINT => { s with setpoint := some ((val.mul ⟨10, 1⟩).lrint) }
  | .POSEIDON_SENSOR1 => { s with o2sensor0 := some ((val.mul ⟨10, 1⟩).lrint) }
  | .POSEIDON_SENSOR2 => { s with o2sensor1 := some ((val.mul ⟨10, 1⟩).lrint) }
  | .POSEIDON_NDL => { s with ndl := some ((val.mul ⟨60, 1⟩).lrint) }
  | .POSEIDON_CEILING => { s with stopdepth := some ((val.mul ⟨1000, 1⟩).lrint) }

/-- Modelled from the spec: `add_sample_pressure` writes a tank pressure into
pressure slot `idx` of the sample. -/
def add_sample_pressure (s : PSample) (idx : Nat) (mbar : Int) : PSample :=
  if idx = 0 then { s with pressure0 := some mbar } else { s with pressure1 := some mbar }

/-- Modelled from the spec: one discrete event as `add_event` records it. -/
structure PEvent where
  time : Int
  typeCode : Nat
  flags : Nat
  value : Int
  name : String
  deriving DecidableEq

/-- Modelled from the spec: event type and flag codes of the external
enumeration; only their distinctness matters to this model. -/
def SAMPLE_EVENT_ASCENT : Nat := 3

/-- Modelled from the spec: see `SAMPLE_EVENT_ASCENT`. -/
def SAMPLE_EVENT_GASCHANGE2 : Nat := 25

/-- Modelled from the spec: see `SAMPLE_EVENT_ASCENT`. -/
def SAMPLE_EVENT_BATTERY : Nat := 26

/-- Modelled from the spec: see `SAMPLE_EVENT_ASCENT`. -/
def SAMPLE_FLAGS_BEGIN : Nat := 1

/-- Modelled from the spec: see `SAMPLE_EVENT_ASCENT`. -/
def SAMPLE_FLAGS_END : Nat := 2

/-! ## Paired header+sample decoder (Poseidon MkVI, parse_txt_file) -/

/-- The mutable local state of the sample loop of `parse_txt_file`: the
samples recorded so far (most recent — the one `prepare_sample` returned —
first), the events recorded so far (in order), the carry-forward locals
`prev_depth`/`prev_setpoint`/`prev_ndl`/`prev_time`, the `sscanf` target
variables, the per-group `has_*` flags and the per-group gas-change
accumulator.  `type`/`value`/`sampletime` are uninitialized ints in the C
code until the first successful conversion writes them; the model gives them
0, which no claim depends on. -/
structure TxtSt where
  samples : List PSample := []
  events : List PEvent := []
  prev_depth : Int := 0
  prev_setpoint : Int := -1
  prev_ndl : Int := -1
  prev_time : Int := 0
  cur_sampletime : Int := 0
  sampletime : Int := 0
  typev : Int := 0
  valuev : Int := 0
  has_depth : Bool := false
  has_setpoint : Bool := false
  has_ndl : Bool := false
  gaschange : Int := 0
  deriving DecidableEq

/-- Models `add_event(dc, ...)`: appends one event. -/
def add_event (st : TxtSt) (time : Int) (typeCode flags : Nat) (value : Int)
    (name : String) : TxtSt :=
  { st with events := st.events ++ [⟨time, typeCode, flags, value, name⟩] }

/-- Applies a field write to the sample `prepare_sample` returned (the most
recently appended one). -/
def modifySample (st : TxtSt) (f : PSample → PSample) : TxtSt :=
  { st with samples := match st.samples with
                       | [] => []
                       | s :: rest => f s :: rest }

/-- Models `sscanf(lineptr, "%d,%d,%d", &cur_sampletime, &type, &value)`:
each target variable keeps its old value when its conversion did not
happen. -/
def scanCurVars (st : TxtSt) (s : Str) : TxtSt :=
  match (sscanf3 s).2 with
  | (a, b, c) => { st with cur_sampletime := a.getD st.cur_sampletime,
                           typev := b.getD st.typev,
                           valuev := c.getD st.valuev }

/-- Models `sscanf(lineptr, "%d,%d,%d", &sampletime, &type, &value)`. -/
def scanSamVars (st : TxtSt) (s : Str) : TxtSt :=
  match (sscanf3 s).2 with
  | (a, b, c) => { st with sampletime := a.getD st.sampletime,
                           typev := b.getD st.typev,
                           valuev := c.getD st.valuev }

/-- Models the type-code dispatch switch of the sample loop (`switch (i)`
with the inner `switch (type)`): only a full 3-field conversion dispatches;
`EOF` and partial conversions change nothing (the latter only log). -/
def txtDispatch (st : TxtSt) (i : Int) : TxtSt :=
  if i = 3 then
    if st.typev = 0 then
      if st.valuev = 0 then add_event st st.cur_sampletime 0 0 0 "Mouth piece position OC"
      else if st.valuev = 1 then add_event st st.cur_sampletime 0 0 0 "Mouth piece position CC"
      else if st.valuev = 2 then add_event st st.cur_sampletime 0 0 0 "Mouth piece position unknown"
      else if st.valuev = 3 then add_event st st.cur_sampletime 0 0 0 "Mouth piece position not connected"
      else st
    else if st.typev = 3 then add_event st st.cur_sampletime 0 0 0 "Power off"
    else if st.typev = 4 then add_event st st.cur_sampletime SAMPLE_EVENT_BATTERY 0 st.valuev "battery"
    else if st.typev = 6 then modifySample st (fun s => add_sample_data s .POSEIDON_SENSOR1 (Frac.ofInt st.valuev))
    else if st.typev = 7 then modifySample st (fun s => add_sample_data s .POSEIDON_SENSOR2 (Frac.ofInt st.valuev))
    else if st.typev = 8 then
      modifySample { st with has_depth := true, prev_depth := st.valuev }
        (fun s => add_sample_data s .POSEIDON_DEPTH (Frac.ofInt st.valuev))
    else if st.typev = 11 then add_event st st.cur_sampletime SAMPLE_EVENT_ASCENT 0 0 "ascent"
    else if st.typev = 13 then modifySample st (fun s => add_sample_pressure s 0 (1000 * st.valuev))
    else if st.typev = 14 then modifySample st (fun s => add_sample_pressure s 1 (1000 * st.valuev))
    else if st.typev = 20 then
      modifySample { st with has_setpoint := true, prev_setpoint := st.valuev }
        (fun s => add_sample_data s .POSEIDON_SETPOINT (Frac.ofInt st.valuev))
    else if st.typev = 22 then
      add_event
        (if st.valuev = 2 then
           add_event st st.cur_sampletime 0 SAMPLE_FLAGS_END 0 "O₂ calibration failed"
         else st)
        st.cur_sampletime 0 SAMPLE_FLAGS_END 0 "O₂ calibration"
    else if st.typev = 25 then modifySample st (fun s => add_sample_data s .POSEIDON_CEILING (Frac.ofInt st.valuev))
    else if st.typev = 31 then add_event st st.cur_sampletime 0 SAMPLE_FLAGS_BEGIN 0 "O₂ calibration"
    else if st.typev = 37 then
      modifySample { st with has_ndl := true, prev_ndl := st.valuev }
        (fun s => add_sample_data s .POSEIDON_NDL (Frac.ofInt st.valuev))
    else if st.typev = 39 then modifySample st (fun s => add_sample_data s .POSEIDON_TEMP (Frac.ofInt st.valuev))
    else if st.typev = 85 then { st with gaschange := st.gaschange + st.valuev * 65536 }
    else if st.typev = 86 then { st with gaschange := st.gaschange + st.valuev }
    else st
  else st

/-- Models the block the C code runs when a timestamp group ends: emit the
accumulated gas-change event if the accumulator is non-zero, then apply the
carry-forward defaults — depth always, setpoint and NDL only when a valid
(non-negative) prior value exists; temperature and tank pressures have no
carry-forward here. -/
def endGroup (st : TxtSt) : TxtSt :=
  let st := if st.gaschange ≠ 0 then
      add_event st st.cur_sampletime SAMPLE_EVENT_GASCHANGE2 0 st.gaschange "gaschange"
    else st
  let st := if ¬ st.has_depth then
      modifySample st (fun s => add_sample_data s .POSEIDON_DEPTH (Frac.ofInt st.prev_depth))
    else st
  let st := if ¬ st.has_setpoint ∧ 0 ≤ st.prev_setpoint then
      modifySample st (fun s => add_sample_data s .POSEIDON_SETPOINT (Frac.ofInt st.prev_setpoint))
    else st
  if ¬ st.has_ndl ∧ 0 ≤ st.prev_ndl then
    modifySample st (fun s => add_sample_data s .POSEIDON_NDL (Frac.ofInt st.prev_ndl))
  else st

/-- The carry-forward block of `endGroup` restricted to the in-progress
sample (the head of the sample list): what the three conditional
`add_sample_data` calls leave in it. -/
def endCarry (st : TxtSt) (s : PSample) : PSample :=
  let s1 := if ¬ st.has_depth then
      add_sample_data s .POSEIDON_DEPTH (Frac.ofInt st.prev_depth) else s
  let s2 := if ¬ st.has_setpoint ∧ 0 ≤ st.prev_setpoint then
      add_sample_data s1 .POSEIDON_SETPOINT (Frac.ofInt st.prev_setpoint) else s1
  if ¬ st.has_ndl ∧ 0 ≤ st.prev_ndl then
    add_sample_data s2 .POSEIDON_NDL (Frac.ofInt st.prev_ndl) else s2

/-- The firmware-overflow threshold `0xFFFF * 3 / 4` (C integer division). -/
def mkviTimeThreshold : Int := 0xFFFF * 3 / 4

/-- Models the sample loop of `parse_txt_file`.  Mode `true` is the top of
the outer `for (;;)` (one timestamp group begins: initial scan, flag reset,
fresh sample with the firmware-overflow timestamp clamp); mode `false` is the
body of the inner `do … while (sampletime == cur_sampletime)`.  The fuel is
set by `parse_txt_file` to twice the buffer length plus two: every inner
iteration either ends the loop or consumes at least one byte, and every
group-start iteration is followed by an inner iteration, so the fuel never
runs out. -/
def txtLoop : Nat → Bool → Str → TxtSt → TxtSt
  | 0, _, _, st => st
  | fuel + 1, true, lineptr, st =>
    let st := scanCurVars st lineptr
    let st := { st with has_depth := false, has_setpoint := false, has_ndl := false,
                        gaschange := 0 }
    let t := if st.cur_sampletime < mkviTimeThreshold then st.cur_sampletime else st.prev_time
    let st := { st with samples := { time := t } :: st.samples, prev_time := t }
    txtLoop fuel false lineptr st
  | fuel + 1, false, lineptr, st =>
    let i := (sscanf3 lineptr).1
    let st := scanSamVars st lineptr
    let st := txtDispatch st i
    match strchrSuffix lineptr '\n' with
    | none => endGroup st
    | some atNL =>
      let l2 := atNL.drop 1
      let st := scanCurVars st l2
      if st.sampletime = st.cur_sampletime then txtLoop fuel false l2 st
      else
        let st := endGroup st
        if l2.isEmpty then st else txtLoop fuel true l2 st

/-- Models `parse_mkvi_value`: the text strictly between the first `": "`
after the needle and the next newline (trailing carriage return stripped).
When the newline found from the needle position lies before the separator the
C pointer arithmetic would go negative (undefined); the natural-number
truncation makes that an empty value. -/
def parse_mkvi_value (haystack needle : Str) : Str :=
  match substrSplit needle haystack with
  | none => []
  | some (_, lineRef) =>
    match substrSplit ": ".toList lineRef with
    | none => []
    | some (beforeSep, _) =>
      match substrSplit "\n".toList lineRef with
      | none => []
      | some (beforeNL, _) =>
        let valuePos := beforeSep.length + 2
        let nlPos := beforeNL.length
        let endPos := if lineRef.getD (nlPos - 1) ' ' = '\r' then nlPos - 1 else nlPos
        (lineRef.drop valuePos).take (endPos - valuePos)

/-- Models `next_mkvi_key`: the text between the first newline and the next
`": "`. -/
def next_mkvi_key (haystack : Str) : Str :=
  match substrSplit "\n".toList haystack with
  | none => []
  | some (_, atNL) =>
    match substrSplit ": ".toList (atNL.drop 1) with
    | none => []
    | some (beforeSep, _) => beforeSep

/-- Models the header `key: value` extraction loop of `parse_txt_file`
(`add_extra_data` calls); a line without the separator or an empty value ends
the walk.  Fuel as in `txtLoop`; each iteration consumes at least one byte. -/
def mkviExtraLoop : Nat → Str → List (Str × Str) → List (Str × Str)
  | 0, _, acc => acc
  | fuel + 1, lineptr, acc =>
    if lineptr.isEmpty then acc
    else
      match strchrSuffix lineptr '\n' with
      | none => acc
      | some atNL =>
        let l2 := atNL.drop 1
        let key := next_mkvi_key l2
        if key.isEmpty then acc
        else
          let value := parse_mkvi_value l2 key
          if value.isEmpty then acc
          else mkviExtraLoop fuel l2 (acc ++ [(key, value)])

/-- Modelled from the spec: the external `utc_mktime`, abstracted to an
injective mixed-radix encoding of the broken-down time.  The decoders depend
only on equality of timestamps and on a successfully parsed date being
distinguishable; the encoding keeps both. -/
def utc_mktime (year mon mday hour minute sec : Int) : Int :=
  ((((year * 12 + mon) * 31 + mday) * 24 + hour) * 60 + minute) * 60 + sec

/-- The cylinder use codes the MkVI decoder assigns. -/
inductive CylUse where
  | OXYGEN | DILUENT
  deriving DecidableEq

/-- Modelled from the spec: the cylinder fields `parse_txt_file` populates
(sizes in ml, pressures in mbar, gas fractions in permille). -/
structure Cylinder where
  cylinder_use : CylUse
  size_ml : Int
  workingpressure_mbar : Int
  description : String
  o2_permille : Int
  he_permille : Int := 0
  manually_added : Bool := false
  deriving DecidableEq

/-- Modelled from the spec: the dive-record fields `parse_txt_file`
populates. -/
structure TxtDive where
  when : Int
  model : String
  deviceid : Int
  no_o2sensors : Nat
  cylinders : List Cylinder
  extra : List (Str × Str)
  samples : List PSample
  events : List PEvent
  deriving DecidableEq

/-- Result of `parse_txt_file`: 0 = not a MkVI file, −1 = failed,
1 = one dive recorded. -/
inductive TxtResult where
  | notMine
  | failed
  | parsed (d : TxtDive)
  deriving DecidableEq

/-- Models `parse_txt_file` on the two buffers (the `.txt` sidecar and the
`.csv` sample stream; both file reads assumed to succeed). -/
def parse_txt_file (memtxt memcsv : Str) : TxtResult :=
  if "MkVI_Config".toList.isPrefixOf memtxt then
    match sscanf_mkvi_date (parse_mkvi_value memtxt "Dive started at".toList) with
    | none => .failed
    | some (y, m, d, hh, mm, ss) =>
      let deviceid := (strtol (parse_mkvi_value memtxt "Rig Serial number".toList)).1
      let he := (strtol (parse_mkvi_value memtxt "Helium percentage".toList)).1
      let n2 := (strtol (parse_mkvi_value memtxt "Nitrogen percentage".toList)).1
      let cyl1 : Cylinder :=
        { cylinder_use := .OXYGEN, size_ml := 3000, workingpressure_mbar := 200000,
          description := "3l Mk6", o2_permille := 1000, manually_added := true }
      let cyl2 : Cylinder :=
        { cylinder_use := .DILUENT, size_ml := 3000, workingpressure_mbar := 200000,
          description := "3l Mk6", o2_permille := (100 - n2 - he) * 10,
          he_permille := he * 10 }
      let extras :=
        match substrSplit "Dive started at".toList memtxt with
        | none => []
        | some (_, fromNeedle) => mkviExtraLoop (memtxt.length + 1) fromNeedle []
      let st := txtLoop (2 * memcsv.length + 2) true memcsv {}
      .parsed { when := utc_mktime y (m - 1) d hh mm ss,
                model := "Poseidon MkVI Discovery", deviceid := deviceid,
                no_o2sensors := 2, cylinders := [cyl1, cyl2], extra := extras,
                samples := st.samples.reverse, events := st.events }
  else .notMine

/-! ## Generic CSV decoder (try_to_open_csv) -/

/-- Modelled from the spec: the external month-name table, English
three-letter abbreviations (the decoder compares exactly three bytes). -/
def monthname (m : Nat) : Str :=
  (["Jan", "Feb", "Mar", "Apr", "May", "Jun", "Jul", "Aug", "Sep", "Oct",
    "Nov", "Dec"].getD m "").toList

/-- Models the month-scan loop of `parse_date`: the first index whose
3-letter name matches the next three bytes, or 12 when none does (the loop
falls through with `tm_mon == 12`). -/
def monthIndex (p : Str) : Nat :=
  ((List.range 12).find? (fun m => (monthname m).isPrefixOf p)).getD 12

/-- Models `parse_date`: day (1–31), immediately the 3-letter month name,
year (with the &lt;70 → +2000, &lt;100 → +1900 windowing), then
`"%d:%d:%d"`; any failure returns 0. -/
def parse_date (date : Str) : Int :=
  let dayRest := strtol date
  if dayRest.1 < 1 ∨ 31 < dayRest.1 then 0
  else
    let mon := monthIndex dayRest.2
    if 11 < mon then 0
    else
      let date2 := dayRest.2.drop 3
      let yearRest := strtol date2
      if yearRest.2.length = date2.length then 0
      else
        let y1 := if yearRest.1 < 70 then yearRest.1 + 2000 else yearRest.1
        let y2 := if y1 < 100 then y1 + 1900 else y1
        match sscanf_hms yearRest.2 with
        | none => 0
        | some (h, mi, s) => utc_mktime y2 mon dayRest.1 h mi s

/-- Models the header loop of `try_to_open_csv`: `n` times, remember the
field start and jump past the next comma; a missing comma is the "not this
format" return.  Returns the `n` field-start suffixes and the cursor after
the last comma. -/
def headersLoop : Nat → Str → Option (List Str × Str)
  | 0, p => some ([], p)
  | n + 1, p =>
    match strchrSuffix p ',' with
    | none => none
    | some r => (headersLoop n (r.drop 1)).map (fun hs => (p :: hs.1, hs.2))

/-- Models the sample loop of `try_to_open_csv`: `strtod`, stop at the first
failed conversion, append a sample per value, step past a comma, stop after a
value not followed by a comma.  Returns the (time, value) pairs in order.
Fuel as in the other loops: each iteration consumes at least one byte. -/
def sampleLoop : Nat → Str → Int → List (Int × Frac)
  | 0, _, _ => []
  | fuel + 1, p, time =>
    match strtodM p with
    | none => []
    | some (v, r) =>
      (time, v) ::
        (match r with
         | ',' :: r2 => sampleLoop fuel r2 (time + 1)
         | _ => [])

/-- The dive record `try_to_open_csv` populates. -/
structure CsvDive where
  when : Int
  number : Int
  samples : List PSample
  duration : Int
  deriving DecidableEq

/-- Models `try_to_open_csv`: `none` is the 0 ("not this format", no dive
appended) return; `some d` means exactly the dive `d` was appended and 1
returned.  The `errno` out-of-range stop of the C loop concerns `double`
overflow and is outside the fraction model (see `strtodM`). -/
def try_to_open_csv (mem : Str) (type : csv_format) : Option CsvDive :=
  match headersLoop 8 mem with
  | none => none
  | some (hs, p) =>
    let date := parse_date (hs.getD 2 [])
    if date = 0 then none
    else
      let pairs := sampleLoop (mem.length + 1) p 0
      some { when := date,
             number := (strtol (hs.getD 1 [])).1,
             samples := pairs.map (fun tv =>
               add_sample_data { time := tv.1 } type tv.2),
             duration := pairs.length }

/-! ## Metadata-header decoder (Seabear, parse_seabear_csv_file) -/

/-- Models the repeated-`strstr` loops of `parse_seabear_csv_file` that find
the last occurrence of a separator: the start index of the last (possibly
overlapping) occurrence of `pat` in `s`, or `none`. -/
def lastOcc (pat s : Str) : Option Nat :=
  ((List.range (s.length + 1)).filter (fun i => pat.isPrefixOf (s.drop i))).max?

/-- Models the newline/body detection of `parse_seabear_csv_file`: CRLF
blank-line pairs are searched first, LF pairs only when no CRLF pair occurs
anywhere; the result is the newline marker and the index just past the last
separator (`ptr_old + 4` or `ptr_old + 2`), `none` when the buffer has no
blank-line separator of either style (the `NL == NULL` −1 return). -/
def seabearSplit (mem : Str) : Option (Str × Nat) :=
  match lastOcc "\r\n\r\n".toList mem with
  | some i => some ("\r\n".toList, i + 4)
  | none =>
    match lastOcc "\n\n".toList mem with
    | some i => some ("\n".toList, i + 2)
    | none => none

/-- Models the fixed-offset date/time extraction of
`parse_seabear_csv_file`: the line after the `"Serial number:"` line is read
at fixed byte offsets; the last two parameters (pre-filled with the current
date and `1`-prefixed time) are overwritten.  Missing marker or newline skips
the overwrite. -/
def seabearDateFix (mem NL : Str) (ps : Params) : Params :=
  match substrSplit "Serial number:".toList mem with
  | none => ps
  | some (_, atMarker) =>
    match substrSplit NL atMarker with
    | none => ps
    | some (_, atNL) =>
      let q := atNL.drop (NL.length + 2)
      let dbuf := q.take 4 ++ (q.drop 5).take 2 ++ (q.drop 8).take 2
      let ps1 := xml_params_set_value ps (ps.length - 2) dbuf
      let tbuf := (xml_params_get_value ps1 (ps1.length - 1)).take 1 ++
                  (q.drop 11).take 2 ++ (q.drop 14).take 2
      xml_params_set_value ps1 (ps1.length - 1) tbuf

/-- Models `parse_seabear_csv_file` (file read assumed to succeed; the
current local date and `1`-prefixed time, appended as the last two parameters
before anything else, are inputs).  `none` models a negative return; `some`
carries the (wrapped body, parameter set) handed to `parse_xml_buffer`.
The body is the text after the last blank-line separator, moved to the start
of the buffer and wrapped; a dive is appended only by the transform engine on
success, never on the `none` path. -/
def parse_seabear_csv_file (mem : Str) (params0 : Params) (nowDate nowTime : Str) :
    Option (Str × Params) :=
  let params1 := xml_params_add (xml_params_add params0 "date" nowDate) "time" nowTime
  match seabearSplit mem with
  | none => none
  | some (NL, bodyStart) =>
    let params2 := seabearDateFix mem NL params1
    let body := mem.drop bodyStart
    match try_to_xslt_open_csv body mem "csv".toList with
    | none => none
    | some payload => some (payload, params2)

/-! ## General lemmas -/

theorem substrSplit_eq (pat : Str) :
    ∀ (s b r : Str), substrSplit pat s = some (b, r) →
      s = b ++ r ∧ pat.isPrefixOf r = true := by
  intro s
  induction s with
  | nil =>
    intro b r h
    unfold substrSplit at h
    split at h
    · next hpre =>
        simp only [Option.some_inj, Prod.mk.injEq] at h
        obtain ⟨hb, hr⟩ := h
        subst hb; subst hr
        exact ⟨rfl, hpre⟩
    · exact absurd h (by simp)
  | cons c t ih =>
    intro b r h
    unfold substrSplit at h
    split at h
    · next hpre =>
        simp only [Option.some_inj, Prod.mk.injEq] at h
        obtain ⟨hb, hr⟩ := h
        subst hb; subst hr
        exact ⟨rfl, hpre⟩
    · next hpre =>
        rw [Option.map_eq_some'] at h
        obtain ⟨⟨b', r'⟩, hbr, heq⟩ := h
        simp only [Prod.mk.injEq] at heq
        obtain ⟨hb, hr⟩ := heq
        subst hb; subst hr
        obtain ⟨ht, hpre'⟩ := ih b' r' hbr
        exact ⟨by rw [ht]; rfl, hpre'⟩

theorem substrSplit_length {pat s b r : Str} (h : substrSplit pat s = some (b, r)) :
    r.length ≤ s.length := by
  obtain ⟨hs, _⟩ := substrSplit_eq pat s b r h
  subst hs
  simp

theorem isPrefixOf_length {p r : Str} (h : p.isPrefixOf r = true) :
    p.length ≤ r.length := by
  have := List.isPrefixOf_iff_prefix.mp h
  exact this.length_le

theorem parse_dan_new_line_lt {NL ptr p : Str} (hNL : NL ≠ [])
    (h : parse_dan_new_line NL ptr = some p) : p.length < ptr.length := by
  unfold parse_dan_new_line at h
  rw [Option.map_eq_some'] at h
  obtain ⟨⟨b, r⟩, hbr, heq⟩ := h
  obtain ⟨hs, hpre⟩ := substrSplit_eq NL ptr b r hbr
  have hr : NL.length ≤ r.length := isPrefixOf_length hpre
  have hNL1 : 1 ≤ NL.length := by
    cases NL with
    | nil => exact absurd rfl hNL
    | cons a t => simp
  subst heq
  have : r.length ≤ ptr.length := by rw [hs]; simp
  simp only [List.length_drop]
  omega

theorem parse_csv_line_lt {ptr NL : Str} {delim : Char} {fs : List Str} {rest : Str}
    (h : parse_csv_line ptr NL delim = some (fs, rest)) : rest.length < ptr.length := by
  unfold parse_csv_line at h
  cases hsp : substrSplit NL ptr with
  | none =>
    rw [hsp] at h
    cases hptr : ptr with
    | nil => rw [hptr] at h; simp at h
    | cons c t =>
      rw [hptr] at h
      simp only at h
      split at h
      · simp only [Option.some_inj, Prod.mk.injEq] at h
        rw [← h.2]
        simp
      · simp at h
  | some p =>
    obtain ⟨b, r⟩ := p
    rw [hsp] at h
    obtain ⟨hs, hpre⟩ := substrSplit_eq NL ptr b r hsp
    cases hb : b with
    | nil => rw [hb] at h; simp at h
    | cons c t =>
      rw [hb] at h
      simp only at h
      split at h
      · simp only [Option.some_inj, Prod.mk.injEq] at h
        have hrest : rest = r.drop NL.length := by rw [← h.2]
        have hrlen : r.length ≤ ptr.length := by rw [hs]; simp
        have hblen : 1 ≤ b.length := by rw [hb]; simp
        have : ptr.length = b.length + r.length := by rw [hs]; simp
        subst hrest
        simp only [List.length_drop]
        omega
      · simp at h

theorem parse_dan_fields_lt {NL : Str} {n : Nat} {ptr : Str} {fields : List Str}
    {rest : Str} (h : parse_dan_fields NL n ptr = some (fields, rest)) :
    rest.length < ptr.length := by
  unfold parse_dan_fields at h
  cases hc : parse_csv_line ptr NL '|' with
  | none => rw [hc] at h; simp at h
  | some p =>
    obtain ⟨fs, rest'⟩ := p
    rw [hc] at h
    simp only at h
    split at h
    · simp at h
    · simp only [Option.some_inj, Prod.mk.injEq] at h
      rw [← h.2]
      exact parse_csv_line_lt hc

theorem parse_dan_zdh_lt {NL : Str} {params params' : Params} {ptr rest : Str}
    (h : parse_dan_zdh NL params ptr = some (params', rest)) :
    rest.length < ptr.length := by
  unfold parse_dan_zdh at h
  cases hf : parse_dan_fields NL 10 (ptr.drop 3) with
  | none => rw [hf] at h; simp at h
  | some p =>
    obtain ⟨fields, rest'⟩ := p
    rw [hf] at h
    simp only [Option.some_inj, Prod.mk.injEq] at h
    have := parse_dan_fields_lt hf
    have hd : (ptr.drop 3).length ≤ ptr.length := by simp
    rw [← h.2]
    omega

theorem parse_dan_zdt_lt {NL : Str} {params params' : Params} {ptr rest : Str}
    (h : parse_dan_zdt NL params ptr = some (params', rest)) :
    rest.length < ptr.length := by
  unfold parse_dan_zdt at h
  cases hf : parse_dan_fields NL 6 (ptr.drop 3) with
  | none => rw [hf] at h; simp at h
  | some p =>
    obtain ⟨fields, rest'⟩ := p
    rw [hf] at h
    simp only [Option.some_inj, Prod.mk.injEq] at h
    have := parse_dan_fields_lt hf
    have hd : (ptr.drop 3).length ≤ ptr.length := by simp
    rw [← h.2]
    omega

theorem parse_dan_zdp_le {NL ptr csv : Str} {p2 : Str}
    (h : parse_dan_zdp NL ptr = some (csv, some p2)) (hNL : NL ≠ []) :
    p2.length < ptr.length := by
  unfold parse_dan_zdp at h
  split at h
  · simp at h
  · split at h
    · simp at h
    · split at h
      · simp at h
      · next p1 hn =>
          split at h
          · simp at h
          · next before endp hsp =>
              simp only [Option.some_inj, Prod.mk.injEq] at h
              have h1 : p1.length < ptr.length := parse_dan_new_line_lt hNL hn
              have h2 : endp.length ≤ p1.length := substrSplit_length hsp
              have h3 : p2.length < endp.length := by
                apply parse_dan_new_line_lt hNL
                rw [h.2]
              omega

theorem fillLoop_eq (l out : Str) : fillLoop l out = l.reverse.flatMap escAmp ++ out := by
  induction l generalizing out with
  | nil => simp [fillLoop]
  | cons c rest ih =>
    simp only [fillLoop, List.reverse_cons, List.flatMap_append, ih]
    simp [escAmp]

theorem xsltWrapCore_eq (s tag : Str) :
    xsltWrapCore s tag =
      ('<' :: tag ++ ['>']) ++ escapeSpec s ++ ('<' :: '/' :: tag ++ ['>']) := by
  simp [xsltWrapCore, fillLoop_eq, escapeSpec]

theorem escapeSpec_length (s : Str) :
    (escapeSpec s).length = s.length + 4 * countAmp s := by
  induction s with
  | nil => simp [escapeSpec, countAmp]
  | cons c rest ih =>
    by_cases hc : c = '&'
    · subst hc
      simp [escapeSpec, escAmp, countAmp, List.count_cons, beq_iff_eq] at *
      omega
    · simp [escapeSpec, escAmp, countAmp, List.count_cons, beq_iff_eq, hc] at *
      omega

theorem xsltWrapCore_length (s tag : Str) :
    (xsltWrapCore s tag).length = wrapTargetSize s tag := by
  rw [xsltWrapCore_eq]
  simp [wrapTargetSize, escapeSpec_length]
  omega

/-! ## C1: the Markup Wrapper -/

/-- C1: for every nonempty buffer and tag, `try_to_xslt_open_csv` succeeds
and rewrites the buffer in place into `<tag>` + escaped-original + `</tag>`
where escaping turns every `'&'` into `"&amp;"` and alters no other byte; the
result length is original + 2·(tag length) + 5 + 4·(count of `'&'`); the
backward fill ends with the write cursor exactly at the buffer start (the
off-by diagnostic is never emitted); and an empty buffer whose fallback file
is also empty reports success without wrapped output. -/
theorem C1_markup_wrapper (mem fileContent tag : Str) (h : mem ≠ []) :
    try_to_xslt_open_csv mem fileContent tag = some (xsltWrapCore mem tag) ∧
    xsltWrapCore mem tag =
      ('<' :: tag ++ ['>']) ++ escapeSpec mem ++ ('<' :: '/' :: tag ++ ['>']) ∧
    (xsltWrapCore mem tag).length =
      mem.length + 2 * tag.length + 5 + 4 * countAmp mem ∧
    ptrOutFinal mem tag = 0 ∧
    try_to_xslt_open_csv [] [] tag = some [] := by
  refine ⟨?_, xsltWrapCore_eq mem tag, ?_, ?_, rfl⟩
  · unfold try_to_xslt_open_csv
    have : mem.isEmpty = false := by
      cases mem with
      | nil => exact absurd rfl h
      | cons a t => rfl
    simp [this]
  · rw [xsltWrapCore_length]; rfl
  · unfold ptrOutFinal
    rw [xsltWrapCore_length]
    omega

/-- Witness for C1 at the spec's own example: input `"A&B"`, tag `"x"`. -/
theorem C1_markup_wrapper_witness :
    try_to_xslt_open_csv "A&B".toList [] "x".toList =
      some ("<x>A&amp;B</x>".toList) := by
  have h := C1_markup_wrapper "A&B".toList [] "x".toList (by decide)
  rw [h.1]
  decide

theorem splitFields_length (delim : Char) :
    ∀ s : Str, (splitFields delim s).length ≤ s.count delim + 1 := by
  intro s
  induction s with
  | nil => simp [splitFields]
  | cons c rest ih =>
    by_cases hc : c = delim
    · have h2 : (c :: rest).count delim = rest.count delim + 1 := by
        simp [List.count_cons, beq_iff_eq, hc]
      simp only [splitFields, if_pos hc, List.length_cons, h2]
      omega
    · simp only [splitFields, if_neg hc]
      have hcount : (c :: rest).count delim = rest.count delim := by
        simp [List.count_cons, beq_iff_eq, hc]
      cases hsf : splitFields delim rest with
      | nil => simp [hcount]
      | cons f fs =>
        rw [hsf] at ih
        simp only [List.length_cons, hcount]
        simpa using ih

/-! ## C7: the tokenizer -/

/-- C7: a line that does not begin with the delimiter is a hard parse
failure; otherwise the tokenizer emits at most (delimiters in the line
span)+1 fields (the implicit leading empty field is skipped, a trailing field
without its delimiter is still emitted — both visible in `splitFields`), and
the cursor afterwards stands exactly just past the line's newline marker, or
at end of buffer when the last line has no trailing newline (not an
error). -/
theorem parse_csv_line_no_delim (ptr NL : Str) (delim : Char)
    (h : (lineOf NL ptr).head? ≠ some delim) : parse_csv_line ptr NL delim = none := by
  cases hsp : substrSplit NL ptr with
  | none =>
    simp only [lineOf, hsp] at h
    simp only [parse_csv_line, hsp]
    cases ptr with
    | nil => rfl
    | cons c t =>
      simp only [List.head?_cons, ne_eq, Option.some_inj] at h
      simp only []
      rw [if_neg h]
  | some p =>
    simp only [lineOf, hsp] at h
    simp only [parse_csv_line, hsp]
    cases hb : p.1 with
    | nil => rfl
    | cons c t =>
      rw [hb] at h
      simp only [List.head?_cons, ne_eq, Option.some_inj] at h
      simp only []
      rw [if_neg h]

theorem parse_csv_line_cases (ptr NL : Str) (delim : Char) (fs : List Str) (rest : Str)
    (h : parse_csv_line ptr NL delim = some (fs, rest)) :
    ∃ lrest, lineOf NL ptr = delim :: lrest ∧ fs = splitFields delim lrest ∧
      ((∃ b r, substrSplit NL ptr = some (b, r) ∧ rest = r.drop NL.length) ∨
       (substrSplit NL ptr = none ∧ rest = [])) := by
  cases hsp : substrSplit NL ptr with
  | none =>
    simp only [parse_csv_line, hsp] at h
    cases hp : ptr with
    | nil => rw [hp] at h; exact absurd h (by simp)
    | cons c t =>
      subst hp
      simp only [] at h
      split at h
      · next hcd =>
          simp only [Option.some_inj, Prod.mk.injEq] at h
          refine ⟨t, ?_, ?_, Or.inr ⟨rfl, h.2.symm⟩⟩
          · rw [hcd] at hsp
            simp [lineOf, hcd, hsp]
          · rw [← h.1]
      · exact absurd h (by simp)
  | some p =>
    obtain ⟨b, r⟩ := p
    simp only [parse_csv_line, hsp] at h
    cases hb : b with
    | nil => rw [hb] at h; exact absurd h (by simp)
    | cons c t =>
      rw [hb] at h
      simp only [] at h
      split at h
      · next hcd =>
          simp only [Option.some_inj, Prod.mk.injEq] at h
          refine ⟨t, ?_, ?_, Or.inl ⟨b, r, by rw [hb], h.2.symm⟩⟩
          · simp [lineOf, hsp, hb, hcd]
          · rw [← h.1]
      · exact absurd h (by simp)

theorem C7_tokenizer (ptr NL : Str) (delim : Char) :
    ((lineOf NL ptr).head? ≠ some delim → parse_csv_line ptr NL delim = none) ∧
    (∀ fs rest, parse_csv_line ptr NL delim = some (fs, rest) →
       fs.length ≤ (lineOf NL ptr).count delim + 1 ∧
       (∀ b r, substrSplit NL ptr = some (b, r) → rest = r.drop NL.length) ∧
       (substrSplit NL ptr = none → rest = [])) := by
  refine ⟨parse_csv_line_no_delim ptr NL delim, ?_⟩
  intro fs rest heq
  obtain ⟨lrest, hline, hfs, hrest⟩ := parse_csv_line_cases ptr NL delim fs rest heq
  refine ⟨?_, ?_, ?_⟩
  · rw [hline, hfs]
    have h1 := splitFields_length delim lrest
    have h2 : (delim :: lrest).count delim = lrest.count delim + 1 := by
      simp [List.count_cons]
    omega
  · intro b r hbr
    rcases hrest with ⟨b', r', hsp', hr⟩ | ⟨hsp', _⟩
    · rw [hbr] at hsp'
      simp only [Option.some_inj, Prod.mk.injEq] at hsp'
      rw [hr, hsp'.2]
    · rw [hbr] at hsp'
      exact absurd hsp' (by simp)
  · intro hnone
    rcases hrest with ⟨b', r', hsp', _⟩ | ⟨_, hr⟩
    · rw [hnone] at hsp'
      exact absurd hsp' (by simp)
    · exact hr

/-- Witness for C7: a line without its leading delimiter fails; a well-formed
`"|a||b\n"` line yields fields within the bound and the cursor just past the
newline. -/
theorem C7_tokenizer_witness :
    parse_csv_line "a|b\nrest".toList "\n".toList '|' = none ∧
    (["a".toList, [], "b".toList] : List Str).length ≤
      (lineOf "\n".toList "|a||b\nrest".toList).count '|' + 1 ∧
    ("rest".toList : Str) = ("\nrest".toList : Str).drop ("\n".toList : Str).length := by
  refine ⟨(C7_tokenizer "a|b\nrest".toList "\n".toList '|').1 (by decide), ?_, ?_⟩
  · exact ((C7_tokenizer "|a||b\nrest".toList "\n".toList '|').2
      ["a".toList, [], "b".toList] "rest".toList (by decide)).1
  · exact ((C7_tokenizer "|a||b\nrest".toList "\n".toList '|').2
      ["a".toList, [], "b".toList] "rest".toList (by decide)).2.1
      "|a||b".toList "\nrest".toList (by decide)

/-! ## Suffix lemmas for the DAN scanner -/

theorem substrSplit_suffix {pat s b r : Str} (h : substrSplit pat s = some (b, r)) :
    r <:+ s :=
  ⟨b, ((substrSplit_eq pat s b r h).1).symm⟩

theorem parse_dan_new_line_suffix {NL ptr p : Str}
    (h : parse_dan_new_line NL ptr = some p) : p <:+ ptr := by
  unfold parse_dan_new_line at h
  rw [Option.map_eq_some'] at h
  obtain ⟨⟨b, r⟩, hbr, heq⟩ := h
  simp only [] at heq
  rw [← heq]
  exact (List.drop_suffix _ _).trans (substrSplit_suffix hbr)

theorem parse_csv_line_suffix {ptr NL : Str} {delim : Char} {fs : List Str} {rest : Str}
    (h : parse_csv_line ptr NL delim = some (fs, rest)) : rest <:+ ptr := by
  obtain ⟨lrest, _, _, hrest⟩ := parse_csv_line_cases ptr NL delim fs rest h
  rcases hrest with ⟨b, r, hsp, hr⟩ | ⟨_, hr⟩
  · rw [hr]
    exact (List.drop_suffix _ _).trans (substrSplit_suffix hsp)
  · rw [hr]
    exact List.nil_suffix

theorem parse_dan_fields_suffix {NL : Str} {n : Nat} {ptr : Str} {fields : List Str}
    {rest : Str} (h : parse_dan_fields NL n ptr = some (fields, rest)) : rest <:+ ptr := by
  unfold parse_dan_fields at h
  cases hc : parse_csv_line ptr NL '|' with
  | none => rw [hc] at h; exact absurd h (by simp)
  | some p =>
    obtain ⟨fs, rest'⟩ := p
    rw [hc] at h
    simp only [] at h
    split at h
    · exact absurd h (by simp)
    · simp only [Option.some_inj, Prod.mk.injEq] at h
      rw [← h.2]
      exact parse_csv_line_suffix hc

theorem parse_dan_zdh_suffix {NL : Str} {params params' : Params} {ptr rest : Str}
    (h : parse_dan_zdh NL params ptr = some (params', rest)) : rest <:+ ptr := by
  unfold parse_dan_zdh at h
  cases hf : parse_dan_fields NL 10 (ptr.drop 3) with
  | none => rw [hf] at h; exact absurd h (by simp)
  | some p =>
    obtain ⟨fields, rest'⟩ := p
    rw [hf] at h
    simp only [Option.some_inj, Prod.mk.injEq] at h
    rw [← h.2]
    exact (parse_dan_fields_suffix hf).trans (List.drop_suffix _ _)

theorem parse_dan_zdt_suffix {NL : Str} {params params' : Params} {ptr rest : Str}
    (h : parse_dan_zdt NL params ptr = some (params', rest)) : rest <:+ ptr := by
  unfold parse_dan_zdt at h
  cases hf : parse_dan_fields NL 6 (ptr.drop 3) with
  | none => rw [hf] at h; exact absurd h (by simp)
  | some p =>
    obtain ⟨fields, rest'⟩ := p
    rw [hf] at h
    simp only [Option.some_inj, Prod.mk.injEq] at h
    rw [← h.2]
    exact (parse_dan_fields_suffix hf).trans (List.drop_suffix _ _)

theorem parse_dan_zdp_suffix {NL ptr csv p2 : Str}
    (h : parse_dan_zdp NL ptr = some (csv, some p2)) : p2 <:+ ptr := by
  unfold parse_dan_zdp at h
  split at h
  · exact absurd h (by simp)
  · split at h
    · exact absurd h (by simp)
    · split at h
      · exact absurd h (by simp)
      · next p1 hn =>
          split at h
          · exact absurd h (by simp)
          · next before endp hsp =>
              simp only [Option.some_inj, Prod.mk.injEq] at h
              have h2 : parse_dan_new_line NL endp = some p2 := by rw [h.2]
              exact ((parse_dan_new_line_suffix h2).trans
                (substrSplit_suffix hsp)).trans (parse_dan_new_line_suffix hn)

theorem danFindZDH_suffix {NL : Str} :
    ∀ (fuel : Nat) (ptr q : Str), danFindZDH NL fuel ptr = some q → q <:+ ptr := by
  intro fuel
  induction fuel with
  | zero => intro ptr q h; exact absurd h (by simp [danFindZDH])
  | succ f ih =>
    intro ptr q h
    unfold danFindZDH at h
    split at h
    · simp only [Option.some_inj] at h
      rw [← h]
    · split at h
      · exact absurd h (by simp)
      · next p hp =>
          exact (ih p q h).trans (parse_dan_new_line_suffix hp)

theorem no_occ_suffix {pat s r : Str}
    (hno : ∀ i, ¬ pat.isPrefixOf (s.drop i) = true) (hsuf : r <:+ s) :
    ¬ pat.isPrefixOf r = true := by
  obtain ⟨t, ht⟩ := hsuf
  have hr : s.drop t.length = r := by rw [← ht]; exact List.drop_left t r
  rw [← hr]
  exact hno t.length

/-! ## C10: an empty or malformed ZDP block is fatal -/

/-- C10: a profile segment that is present but empty (`ZDP{}`) aborts the
decode of the whole file with the fatal "No dive profile found" error, and a
`ZDP` marker not followed by `{` is likewise fatal, while a wholly absent
profile segment is accepted: the same header/trailer file without any ZDP
line decodes successfully. -/
theorem C10_empty_zdp_fatal :
    (∀ NL ptr : Str, "ZDP\x7b\x7d".toList.isPrefixOf ptr = true →
       parse_dan_zdp NL ptr = none) ∧
    (∀ NL ptr : Str, "ZDP\x7b".toList.isPrefixOf ptr = false →
       parse_dan_zdp NL ptr = none) ∧
    parse_dan_format "P\nZDH|a|b\nZDP\x7b\x7d\nZDT|x\n".toList [] = none ∧
    parse_dan_format "P\nZDH|a|b\nZDPx\nZDT|x\n".toList [] = none ∧
    parse_dan_format "P\nZDH|a|b\nZDT|x\n".toList [] ≠ none := by
  refine ⟨?_, ?_, by decide, by decide, by decide⟩
  · intro NL ptr h
    obtain ⟨t, ht⟩ := List.isPrefixOf_iff_prefix.mp h
    subst ht
    have h1 : "ZDP\x7b".toList.isPrefixOf ("ZDP\x7b\x7d".toList ++ t) = true := by
      rw [List.isPrefixOf_iff_prefix]
      exact ⟨'}' :: t, rfl⟩
    have h2 : ("ZDP\x7b\x7d".toList ++ t).getD 4 '\x00' = '}' := by
      have h4 : (4 : Nat) < ("ZDP\x7b\x7d".toList).length := by decide
      rw [List.getD_append _ _ _ _ h4]
      decide
    simp [parse_dan_zdp, h1, h2]
  · intro NL ptr hne
    have hc : ¬ "ZDP\x7b".toList.isPrefixOf ptr = true := by rw [hne]; simp
    unfold parse_dan_zdp
    rw [if_pos hc]

/-- Witness for C10 at concrete cursors: an empty `ZDP{}` block and a `ZDP`
marker without `{` both fail. -/
theorem C10_empty_zdp_fatal_witness :
    parse_dan_zdp "\n".toList "ZDP\x7b\x7drest".toList = none ∧
    parse_dan_zdp "\n".toList "ZDPx\nmore".toList = none := by
  constructor
  · exact C10_empty_zdp_fatal.1 "\n".toList "ZDP\x7b\x7drest".toList (by decide)
  · exact C10_empty_zdp_fatal.2.1 "\n".toList "ZDPx\nmore".toList (by decide)


/-! ## C2: the ZDP payload handed to the transform engine -/

/-- C2 (amended): a missing ZDP segment is not an error, and a present
segment's payload is the verbatim interior of the block (everything between
the end of the `ZDP{` line and the closing `ZDP}` marker).  But a dive with
no ZDP block does not hand an empty payload to the engine: the wrapper's
empty-buffer fallback re-reads the whole file, so the payload handed is the
wrap of the entire file content. -/
theorem C2_dan_zdp_payload :
    (∀ (NL ptr csv : Str) (optr : Option Str),
       parse_dan_zdp NL ptr = some (csv, optr) →
       ∃ afterOpen r, parse_dan_new_line NL ptr = some afterOpen ∧
         afterOpen = csv ++ r ∧ "ZDP\x7d".toList.isPrefixOf r = true) ∧
    parse_dan_format "P\nZDH|a|b\nZDP\x7b\n1|2\nZDP\x7d\nZDT|x\n".toList [] =
      some [(xsltWrapCore "1|2\n".toList "csv".toList,
             [("airTemp", []), ("diveNro", ['b']), ("waterTemp", [])])] ∧
    parse_dan_format "P\nZDH|a|b\nZDT|x\n".toList [] =
      some [(xsltWrapCore "P\nZDH|a|b\nZDT|x\n".toList "csv".toList,
             [("airTemp", []), ("diveNro", ['b']), ("waterTemp", [])])] := by
  refine ⟨?_, by decide, by decide⟩
  intro NL ptr csv optr h
  unfold parse_dan_zdp at h
  split at h
  · exact absurd h (by simp)
  · split at h
    · exact absurd h (by simp)
    · split at h
      · exact absurd h (by simp)
      · next p1 hn =>
          split at h
          · exact absurd h (by simp)
          · next before endp hsp =>
              simp only [Option.some_inj, Prod.mk.injEq] at h
              obtain ⟨hs, hpre⟩ := substrSplit_eq _ _ _ _ hsp
              exact ⟨p1, endp, hn, by rw [hs, h.1], hpre⟩

/-- Counterexample to C2 as frozen: for a dive whose ZDP block is wholly
absent the payload handed to the transform engine is the wrap of the entire
re-read file, not an empty payload (the wrap of an empty payload would be
`<csv></csv>`). -/
theorem C2_dan_zdp_payload_counterexample :
    parse_dan_format "P\nZDH|a|b\nZDT|x\n".toList [] =
      some [(xsltWrapCore "P\nZDH|a|b\nZDT|x\n".toList "csv".toList,
             [("airTemp", []), ("diveNro", ['b']), ("waterTemp", [])])] ∧
    xsltWrapCore "P\nZDH|a|b\nZDT|x\n".toList "csv".toList ≠
      xsltWrapCore [] "csv".toList ∧
    xsltWrapCore [] "csv".toList = "<csv></csv>".toList := by
  decide

/-- Witness for C2's general part at a concrete ZDP block. -/
theorem C2_dan_zdp_payload_witness :
    ∃ afterOpen r,
      parse_dan_new_line "\n".toList "ZDP\x7b\n1|2\nZDP\x7d\nrest".toList = some afterOpen ∧
      afterOpen = "1|2\n".toList ++ r ∧ "ZDP\x7d".toList.isPrefixOf r = true :=
  C2_dan_zdp_payload.1 "\n".toList "ZDP\x7b\n1|2\nZDP\x7d\nrest".toList "1|2\n".toList
    (some "rest".toList) (by decide)

/-! ## C3: trailer requirement and the end condition -/

theorem no_occ_of_range {pat s : Str} (hp : pat ≠ [])
    (h : ∀ i ∈ List.range (s.length + 1), ¬ pat.isPrefixOf (s.drop i) = true) :
    ∀ i, ¬ pat.isPrefixOf (s.drop i) = true := by
  intro i
  by_cases hi : i ≤ s.length
  · exact h i (List.mem_range.mpr (by omega))
  · have hdrop : s.drop i = [] := List.drop_eq_nil_of_le (by omega)
    rw [hdrop]
    cases pat with
    | nil => exact absurd rfl hp
    | cons a t => simp [List.isPrefixOf]

/-- C3 (amended), general half: from any nonempty scan position after which
no `ZDT` marker starts a suffix, the per-dive loop fails — whether because no
`ZDH` is found, a segment is malformed, or the mandatory trailer check fails;
it can never reach the success exit. -/
theorem C3_danLoop_no_trailer (NL mem : Str) (base : Params) :
    ∀ (fuel : Nat) (ptr : Str) (acc : List (Str × Params)), ptr ≠ [] →
      (∀ i, ¬ "ZDT".toList.isPrefixOf (ptr.drop i) = true) →
      danLoop NL mem base fuel ptr acc = none := by
  intro fuel ptr acc hne hno
  cases fuel with
  | zero => rfl
  | succ f =>
    have hempty : ptr.isEmpty = false := by
      cases ptr with
      | nil => exact absurd rfl hne
      | cons a t => rfl
    simp only [danLoop, hempty, Bool.false_eq_true, if_false]
    cases hz : danFindZDH NL (ptr.length + 1) ptr with
    | none => simp only [hz]
    | some ptrZ =>
      simp only [hz]
      cases hh : parse_dan_zdh NL (xml_params_resize base base.length) ptrZ with
      | none => simp only [hh]
      | some pr =>
        obtain ⟨params1, ptr1⟩ := pr
        simp only [hh]
        cases hp : (if "ZDP".toList.isPrefixOf ptr1 then parse_dan_zdp NL ptr1
                    else some (([] : Str), some ptr1)) with
        | none => simp only [hp]
        | some pr2 =>
          obtain ⟨memcsv, optPtr2⟩ := pr2
          simp only [hp]
          cases optPtr2 with
          | none => rfl
          | some ptr2 =>
            have hq : ptrZ <:+ ptr := danFindZDH_suffix _ _ _ hz
            have h1 : ptr1 <:+ ptrZ := parse_dan_zdh_suffix hh
            have h2 : ptr2 <:+ ptr1 := by
              by_cases hzp : "ZDP".toList.isPrefixOf ptr1 = true
              · rw [if_pos hzp] at hp
                exact parse_dan_zdp_suffix hp
              · rw [if_neg hzp] at hp
                simp at hp
                obtain ⟨h3, h4⟩ := hp
                cases h4
                exact List.suffix_refl _
            have hzdt : ¬ "ZDT".toList.isPrefixOf ptr2 = true :=
              no_occ_suffix hno ((h2.trans h1).trans hq)
            simp only [hzdt]
            simp [hzdt]

/-- C3 (amended): a `ZDH` header after which no `ZDT` trailer is reachable
makes the decode of the whole file fail (general half above); exhausting the
buffer exactly at the end of the last trailer line is a success, but — unlike
the frozen claim — trailing content after the last trailer that contains no
further `ZDH` header, even a single blank line, also makes the whole decode
fail with "Expected ZDH header not found". -/
theorem C3_trailer_end_condition :
    (∀ (NL mem : Str) (base : Params) (fuel : Nat) (ptr : Str)
       (acc : List (Str × Params)), ptr ≠ [] →
       (∀ i, ¬ "ZDT".toList.isPrefixOf (ptr.drop i) = true) →
       danLoop NL mem base fuel ptr acc = none) ∧
    parse_dan_format "P\nZDH|a|b\nZDT|x\n".toList [] =
      some [(xsltWrapCore "P\nZDH|a|b\nZDT|x\n".toList "csv".toList,
             [("airTemp", []), ("diveNro", ['b']), ("waterTemp", [])])] ∧
    parse_dan_format "P\nZDH|a|b\nZDT|x\n\n".toList [] = none ∧
    parse_dan_format "P\nZDH|a|b\nZDT|x\nq".toList [] = none := by
  exact ⟨C3_danLoop_no_trailer, by decide, by decide, by decide⟩

/-- Counterexample to C3 as frozen: the same buffer whose single dive decodes
completely (first conjunct) fails as a whole once two trailing newlines —
a blank line of non-header content — follow the trailer. -/
theorem C3_trailer_end_condition_counterexample :
    parse_dan_format "P\nZDH|a|b\nZDT|x\n".toList [] ≠ none ∧
    parse_dan_format "P\nZDH|a|b\nZDT|x\n\n".toList [] = none :=
  ⟨by decide, by decide⟩

/-- Witness for C3's general half: a header with no trailer anywhere after it
fails. -/
theorem C3_trailer_end_condition_witness :
    danLoop "\n".toList "m".toList [] 50 "ZDH|a|b\nstill no trailer\n".toList [] = none :=
  C3_trailer_end_condition.1 "\n".toList "m".toList [] 50
    "ZDH|a|b\nstill no trailer\n".toList [] (by decide)
    (no_occ_of_range (by decide) (by decide))



/-! ## Helper lemmas for the Poseidon sample loop -/

theorem endGroup_samples (st : TxtSt) (s : PSample) (rest : List PSample)
    (h : st.samples = s :: rest) :
    (endGroup st).samples = endCarry st s :: rest := by
  by_cases hg : st.gaschange ≠ 0 <;>
  by_cases hd : st.has_depth = false <;>
  by_cases hsp : st.has_setpoint = false ∧ 0 ≤ st.prev_setpoint <;>
  by_cases hn : st.has_ndl = false ∧ 0 ≤ st.prev_ndl <;>
  simp [endGroup, endCarry, add_event, modifySample, h, hg, hd, hsp, hn]

theorem endGroup_events (st : TxtSt) :
    (endGroup st).events =
      if st.gaschange ≠ 0 then
        st.events ++ [⟨st.cur_sampletime, SAMPLE_EVENT_GASCHANGE2, 0, st.gaschange,
                       "gaschange"⟩]
      else st.events := by
  by_cases hg : st.gaschange ≠ 0 <;>
  by_cases hd : st.has_depth = false <;>
  by_cases hsp : st.has_setpoint = false ∧ 0 ≤ st.prev_setpoint <;>
  by_cases hn : st.has_ndl = false ∧ 0 ≤ st.prev_ndl <;>
  simp [endGroup, add_event, modifySample, hg, hd, hsp, hn] <;>
  cases st.samples <;> simp

theorem poseidon_depth_val (v : Int) :
    (((Frac.ofInt v).mul ⟨1, 2⟩).mul ⟨1000, 1⟩).lrint = 500 * v := by
  simp only [Frac.ofInt, Frac.mul, Frac.lrint]
  rw [Int.fdiv_eq_ediv _ (by norm_num)]
  omega

theorem poseidon_setpoint_val (v : Int) :
    ((Frac.ofInt v).mul ⟨10, 1⟩).lrint = 10 * v := by
  simp only [Frac.ofInt, Frac.mul, Frac.lrint]
  rw [Int.fdiv_eq_ediv _ (by norm_num)]
  omega

theorem poseidon_ndl_val (v : Int) :
    ((Frac.ofInt v).mul ⟨60, 1⟩).lrint = 60 * v := by
  simp only [Frac.ofInt, Frac.mul, Frac.lrint]
  rw [Int.fdiv_eq_ediv _ (by norm_num)]
  omega

theorem endCarry_depth (st : TxtSt) (s : PSample) (h : st.has_depth = false) :
    (endCarry st s).depth = some (500 * st.prev_depth) := by
  unfold endCarry
  split_ifs <;> simp_all [add_sample_data, poseidon_depth_val]

theorem endCarry_setpoint (st : TxtSt) (s : PSample) (h : st.has_setpoint = false)
    (h0 : 0 ≤ st.prev_setpoint) :
    (endCarry st s).setpoint = some (10 * st.prev_setpoint) := by
  unfold endCarry
  split_ifs <;> simp_all [add_sample_data, poseidon_setpoint_val]

theorem endCarry_setpoint_kept (st : TxtSt) (s : PSample)
    (h0 : st.prev_setpoint < 0) :
    (endCarry st s).setpoint = s.setpoint := by
  unfold endCarry
  split_ifs <;> simp_all [add_sample_data] <;> omega

theorem endCarry_ndl (st : TxtSt) (s : PSample) (h : st.has_ndl = false)
    (h0 : 0 ≤ st.prev_ndl) :
    (endCarry st s).ndl = some (60 * st.prev_ndl) := by
  unfold endCarry
  split_ifs <;> simp_all [add_sample_data, poseidon_ndl_val]

theorem endCarry_ndl_kept (st : TxtSt) (s : PSample) (h0 : st.prev_ndl < 0) :
    (endCarry st s).ndl = s.ndl := by
  unfold endCarry
  split_ifs <;> simp_all [add_sample_data] <;> omega

theorem endCarry_frame (st : TxtSt) (s : PSample) :
    (endCarry st s).temperature = s.temperature ∧
    (endCarry st s).pressure0 = s.pressure0 ∧
    (endCarry st s).pressure1 = s.pressure1 := by
  unfold endCarry
  split_ifs <;> simp [add_sample_data]

set_option maxHeartbeats 1000000 in
theorem txtDispatch_untouched (st : TxtSt) (i : Int) :
    (st.typev ≠ 39 → (txtDispatch st i).samples.map PSample.temperature =
       st.samples.map PSample.temperature) ∧
    (st.typev ≠ 13 → (txtDispatch st i).samples.map PSample.pressure0 =
       st.samples.map PSample.pressure0) ∧
    (st.typev ≠ 14 → (txtDispatch st i).samples.map PSample.pressure1 =
       st.samples.map PSample.pressure1) := by
  by_cases hi : i = 3
  case neg =>
    refine ⟨fun hc => ?_, fun hc => ?_, fun hc => ?_⟩ <;> simp [txtDispatch, hi]
  case pos =>
    subst hi
    by_cases h0 : st.typev = 0
    · refine ⟨fun hc => ?_, fun hc => ?_, fun hc => ?_⟩ <;>
        first
          | exact absurd h0 hc
          | (simp [txtDispatch, h0, add_event] <;>
             (try (split_ifs <;> simp [add_event])) <;>
             (try (cases hsm : st.samples <;>
                simp [hsm, modifySample, add_sample_data, add_sample_pressure])))
    by_cases h3 : st.typev = 3
    · refine ⟨fun hc => ?_, fun hc => ?_, fun hc => ?_⟩ <;>
        first
          | exact absurd h3 hc
          | (simp [txtDispatch, h3, add_event] <;>
             (try (split_ifs <;> simp [add_event])) <;>
             (try (cases hsm : st.samples <;>
                simp [hsm, modifySample, add_sample_data, add_sample_pressure])))
    by_cases h4 : st.typev = 4
    · refine ⟨fun hc => ?_, fun hc => ?_, fun hc => ?_⟩ <;>
        first
          | exact absurd h4 hc
          | (simp [txtDispatch, h4, add_event] <;>
             (try (split_ifs <;> simp [add_event])) <;>
             (try (cases hsm : st.samples <;>
                simp [hsm, modifySample, add_sample_data, add_sample_pressure])))
    by_cases h6 : st.typev = 6
    · refine ⟨fun hc => ?_, fun hc => ?_, fun hc => ?_⟩ <;>
        first
          | exact absurd h6 hc
          | (simp [txtDispatch, h6, add_event] <;>
             (try (split_ifs <;> simp [add_event])) <;>
             (try (cases hsm : st.samples <;>
                simp [hsm, modifySample, add_sample_data, add_sample_pressure])))
    by_cases h7 : st.typev = 7
    · refine ⟨fun hc => ?_, fun hc => ?_, fun hc => ?_⟩ <;>
        first
          | exact absurd h7 hc
          | (simp [txtDispatch, h7, add_event] <;>
             (try (split_ifs <;> simp [add_event])) <;>
             (try (cases hsm : st.samples <;>
                simp [hsm, modifySample, add_sample_data, add_sample_pressure])))
    by_cases h8 : st.typev = 8
    · refine ⟨fun hc => ?_, fun hc => ?_, fun hc => ?_⟩ <;>
        first
          | exact absurd h8 hc
          | (simp [txtDispatch, h8, add_event] <;>
             (try (split_ifs <;> simp [add_event])) <;>
             (try (cases hsm : st.samples <;>
                simp [hsm, modifySample, add_sample_data, add_sample_pressure])))
    by_cases h11 : st.typev = 11
    · refine ⟨fun hc => ?_, fun hc => ?_, fun hc => ?_⟩ <;>
        first
          | exact absurd h11 hc
          | (simp [txtDispatch, h11, add_event] <;>
             (try (split_ifs <;> simp [add_event])) <;>
             (try (cases hsm : st.samples <;>
                simp [hsm, modifySample, add_sample_data, add_sample_pressure])))
    by_cases h13 : st.typev = 13
    · refine ⟨fun hc => ?_, fun hc => ?_, fun hc => ?_⟩ <;>
        first
          | exact absurd h13 hc
          | (simp [txtDispatch, h13, add_event] <;>
             (try (split_ifs <;> simp [add_event])) <;>
             (try (cases hsm : st.samples <;>
                simp [hsm, modifySample, add_sample_data, add_sample_pressure])))
    by_cases h14 : st.typev = 14
    · refine ⟨fun hc => ?_, fun hc => ?_, fun hc => ?_⟩ <;>
        first
          | exact absurd h14 hc
          | (simp [txtDispatch, h14, add_event] <;>
             (try (split_ifs <;> simp [add_event])) <;>
             (try (cases hsm : st.samples <;>
                simp [hsm, modifySample, add_sample_data, add_sample_pressure])))
    by_cases h20 : st.typev = 20
    · refine ⟨fun hc => ?_, fun hc => ?_, fun hc => ?_⟩ <;>
        first
          | exact absurd h20 hc
          | (simp [txtDispatch, h20, add_event] <;>
             (try (split_ifs <;> simp [add_event])) <;>
             (try (cases hsm : st.samples <;>
                simp [hsm, modifySample, add_sample_data, add_sample_pressure])))
    by_cases h22 : st.typev = 22
    · refine ⟨fun hc => ?_, fun hc => ?_, fun hc => ?_⟩ <;>
        first
          | exact absurd h22 hc
          | (simp [txtDispatch, h22, add_event] <;>
             (try (split_ifs <;> simp [add_event])) <;>
             (try (cases hsm : st.samples <;>
                simp [hsm, modifySample, add_sample_data, add_sample_pressure])))
    by_cases h25 : st.typev = 25
    · refine ⟨fun hc => ?_, fun hc => ?_, fun hc => ?_⟩ <;>
        first
          | exact absurd h25 hc
          | (simp [txtDispatch, h25, add_event] <;>
             (try (split_ifs <;> simp [add_event])) <;>
             (try (cases hsm : st.samples <;>
                simp [hsm, modifySample, add_sample_data, add_sample_pressure])))
    by_cases h31 : st.typev = 31
    · refine ⟨fun hc => ?_, fun hc => ?_, fun hc => ?_⟩ <;>
        first
          | exact absurd h31 hc
          | (simp [txtDispatch, h31, add_event] <;>
             (try (split_ifs <;> simp [add_event])) <;>
             (try (cases hsm : st.samples <;>
                simp [hsm, modifySample, add_sample_data, add_sample_pressure])))
    by_cases h37 : st.typev = 37
    · refine ⟨fun hc => ?_, fun hc => ?_, fun hc => ?_⟩ <;>
        first
          | exact absurd h37 hc
          | (simp [txtDispatch, h37, add_event] <;>
             (try (split_ifs <;> simp [add_event])) <;>
             (try (cases hsm : st.samples <;>
                simp [hsm, modifySample, add_sample_data, add_sample_pressure])))
    by_cases h39 : st.typev = 39
    · refine ⟨fun hc => ?_, fun hc => ?_, fun hc => ?_⟩ <;>
        first
          | exact absurd h39 hc
          | (simp [txtDispatch, h39, add_event] <;>
             (try (split_ifs <;> simp [add_event])) <;>
             (try (cases hsm : st.samples <;>
                simp [hsm, modifySample, add_sample_data, add_sample_pressure])))
    by_cases h85 : st.typev = 85
    · refine ⟨fun hc => ?_, fun hc => ?_, fun hc => ?_⟩ <;>
        first
          | exact absurd h85 hc
          | (simp [txtDispatch, h85, add_event] <;>
             (try (split_ifs <;> simp [add_event])) <;>
             (try (cases hsm : st.samples <;>
                simp [hsm, modifySample, add_sample_data, add_sample_pressure])))
    by_cases h86 : st.typev = 86
    · refine ⟨fun hc => ?_, fun hc => ?_, fun hc => ?_⟩ <;>
        first
          | exact absurd h86 hc
          | (simp [txtDispatch, h86, add_event] <;>
             (try (split_ifs <;> simp [add_event])) <;>
             (try (cases hsm : st.samples <;>
                simp [hsm, modifySample, add_sample_data, add_sample_pressure])))
    · refine ⟨fun hc => ?_, fun hc => ?_, fun hc => ?_⟩ <;>
        simp [txtDispatch, h0, h3, h4, h6, h7, h8, h11, h13, h14, h20, h22, h25, h31, h37, h39, h85, h86]

/-! ## C4: carry-forward defaults -/

/-- C4: after every timestamp group, a group with no depth record receives
the previous depth (500·prev_depth millimetres — the same conversion the
type-8 record itself got), with the initial previous depth 0 so a first group
defaults to zero depth; setpoint and NDL fall back only when a valid
(non-negative) prior value exists, with initial sentinels −1; temperature and
tank pressures are never touched by the carry-forward block and start unset
in every fresh sample, and no dispatch case other than type 39 (temperature)
and types 13/14 (tank pressures) ever writes them.  The concrete three-group
stream shows a first group defaulting to zero depth, a second group with
explicit depth and temperature, and a third group that inherits the depth
while its temperature stays unset. -/
theorem C4_poseidon_carry_forward :
    (∀ (st : TxtSt) (s : PSample) (rest : List PSample), st.samples = s :: rest →
       (endGroup st).samples = endCarry st s :: rest) ∧
    (∀ (st : TxtSt) (s : PSample), st.has_depth = false →
       (endCarry st s).depth = some (500 * st.prev_depth)) ∧
    (∀ (st : TxtSt) (s : PSample), st.has_setpoint = false → 0 ≤ st.prev_setpoint →
       (endCarry st s).setpoint = some (10 * st.prev_setpoint)) ∧
    (∀ (st : TxtSt) (s : PSample), st.prev_setpoint < 0 →
       (endCarry st s).setpoint = s.setpoint) ∧
    (∀ (st : TxtSt) (s : PSample), st.has_ndl = false → 0 ≤ st.prev_ndl →
       (endCarry st s).ndl = some (60 * st.prev_ndl)) ∧
    (∀ (st : TxtSt) (s : PSample), st.prev_ndl < 0 → (endCarry st s).ndl = s.ndl) ∧
    (∀ (st : TxtSt) (s : PSample),
       (endCarry st s).temperature = s.temperature ∧
       (endCarry st s).pressure0 = s.pressure0 ∧
       (endCarry st s).pressure1 = s.pressure1) ∧
    (∀ t : Int, ({ time := t } : PSample).depth = none ∧
       ({ time := t } : PSample).temperature = none ∧
       ({ time := t } : PSample).pressure0 = none ∧
       ({ time := t } : PSample).pressure1 = none) ∧
    ({} : TxtSt).prev_depth = 0 ∧
    ({} : TxtSt).prev_setpoint = -1 ∧
    ({} : TxtSt).prev_ndl = -1 ∧
    (∀ (st : TxtSt) (i : Int), st.typev ≠ 39 →
       (txtDispatch st i).samples.map PSample.temperature =
         st.samples.map PSample.temperature) ∧
    (∀ (st : TxtSt) (i : Int), st.typev ≠ 13 →
       (txtDispatch st i).samples.map PSample.pressure0 =
         st.samples.map PSample.pressure0) ∧
    (∀ (st : TxtSt) (i : Int), st.typev ≠ 14 →
       (txtDispatch st i).samples.map PSample.pressure1 =
         st.samples.map PSample.pressure1) ∧
    ((txtLoop (2 * ("1,6,100\n2,8,7\n2,39,12\n3,6,101\n".toList : Str).length + 2) true
        "1,6,100\n2,8,7\n2,39,12\n3,6,101\n".toList {}).samples.reverse.map
          (fun s => (s.time, s.depth, s.temperature)) =
      [(1, some 0, none), (2, some 3500, some 275550), (3, some 3500, none)]) := by
  refine ⟨endGroup_samples, endCarry_depth, endCarry_setpoint, endCarry_setpoint_kept,
          endCarry_ndl, endCarry_ndl_kept, endCarry_frame,
          fun t => ⟨rfl, rfl, rfl, rfl⟩, rfl, rfl, rfl,
          fun st i => (txtDispatch_untouched st i).1,
          fun st i => (txtDispatch_untouched st i).2.1,
          fun st i => (txtDispatch_untouched st i).2.2,
          by decide⟩

/-- Witness for C4 at a concrete state: a group that saw no depth record and
has previous depth 7 receives depth 3500 mm; a negative previous setpoint is
not applied. -/
theorem C4_poseidon_carry_forward_witness :
    (endCarry ({ prev_depth := 7 } : TxtSt) {}).depth = some (500 * 7) ∧
    (endCarry ({ prev_depth := 7 } : TxtSt) {}).setpoint = ({} : PSample).setpoint ∧
    (endGroup ({ samples := [{}], prev_depth := 7 } : TxtSt)).samples =
      [endCarry ({ samples := [{}], prev_depth := 7 } : TxtSt) {}] := by
  refine ⟨C4_poseidon_carry_forward.2.1 _ _ (by decide),
          C4_poseidon_carry_forward.2.2.2.1 _ _ (by decide),
          C4_poseidon_carry_forward.1 _ {} [] (by decide)⟩

/-! ## C5: gas-change accumulation -/

/-- C5: within one timestamp group the helium-diluent records (type 85) add
`value << 16` and the oxygen-diluent records (type 86) add `value` to a
single accumulator, and the group-end block emits exactly one synthetic
gas-change event carrying the accumulated value iff it is non-zero; the
concrete group with records `85,10` and `86,21` yields exactly one gas-change
event with value `(10<<16)+21 = 655381`, and groups with no diluent records
or a zero accumulation yield none. -/
theorem C5_gaschange_accumulation :
    (∀ st : TxtSt, st.typev = 85 →
       txtDispatch st 3 = { st with gaschange := st.gaschange + st.valuev * 65536 }) ∧
    (∀ st : TxtSt, st.typev = 86 →
       txtDispatch st 3 = { st with gaschange := st.gaschange + st.valuev }) ∧
    (∀ st : TxtSt, (endGroup st).events =
       if st.gaschange ≠ 0 then
         st.events ++ [⟨st.cur_sampletime, SAMPLE_EVENT_GASCHANGE2, 0, st.gaschange,
                        "gaschange"⟩]
       else st.events) ∧
    ((txtLoop (2 * ("5,85,10\n5,86,21\n6,8,3\n".toList : Str).length + 2) true
        "5,85,10\n5,86,21\n6,8,3\n".toList {}).events.filter
          (fun e => e.name = "gaschange") =
      [⟨6, SAMPLE_EVENT_GASCHANGE2, 0, 10 * 65536 + 21, "gaschange"⟩]) ∧
    ((txtLoop (2 * ("1,8,5\n".toList : Str).length + 2) true "1,8,5\n".toList
        {}).events.filter (fun e => e.name = "gaschange") = []) ∧
    ((txtLoop (2 * ("5,85,0\n5,86,0\n6,8,3\n".toList : Str).length + 2) true
        "5,85,0\n5,86,0\n6,8,3\n".toList {}).events.filter
          (fun e => e.name = "gaschange") = []) := by
  refine ⟨?_, ?_, endGroup_events, by decide, by decide, by decide⟩
  · intro st h
    simp [txtDispatch, h]
  · intro st h
    simp [txtDispatch, h]

/-- Witness for C5 at a concrete state: a type-85 record with value 10 adds
`10 * 65536` to the accumulator. -/
theorem C5_gaschange_accumulation_witness :
    txtDispatch ({ typev := 85, valuev := 10 } : TxtSt) 3 =
      { ({ typev := 85, valuev := 10 } : TxtSt) with gaschange := 0 + 10 * 65536 } :=
  C5_gaschange_accumulation.1 _ (by decide)

/-! ## C8: the firmware-overflow timestamp clamp -/

/-- C8: the threshold is `0xFFFF·3/4 = 49151`; at every group start a scanned
timestamp at or above it is replaced by the previously assigned sample time
(`prev_time`, initially zero), and a timestamp below it is used unchanged and
becomes the new previous value. -/
theorem C8_timestamp_clamp :
    mkviTimeThreshold = 49151 ∧
    (∀ (fuel : Nat) (lineptr : Str) (st : TxtSt),
       mkviTimeThreshold ≤ (scanCurVars st lineptr).cur_sampletime →
       txtLoop (fuel + 1) true lineptr st =
         txtLoop fuel false lineptr
           { scanCurVars st lineptr with
             has_depth := false, has_setpoint := false, has_ndl := false,
             gaschange := 0,
             samples := { time := st.prev_time } :: st.samples,
             prev_time := st.prev_time }) ∧
    (∀ (fuel : Nat) (lineptr : Str) (st : TxtSt),
       (scanCurVars st lineptr).cur_sampletime < mkviTimeThreshold →
       txtLoop (fuel + 1) true lineptr st =
         txtLoop fuel false lineptr
           { scanCurVars st lineptr with
             has_depth := false, has_setpoint := false, has_ndl := false,
             gaschange := 0,
             samples := { time := (scanCurVars st lineptr).cur_sampletime } :: st.samples,
             prev_time := (scanCurVars st lineptr).cur_sampletime }) ∧
    ({} : TxtSt).prev_time = 0 ∧
    ((txtLoop (2 * ("100,8,5\n49152,8,6\n".toList : Str).length + 2) true
        "100,8,5\n49152,8,6\n".toList {}).samples.reverse.map (fun s => s.time) =
      [100, 100]) ∧
    ((txtLoop (2 * ("49151,8,5\n".toList : Str).length + 2) true
        "49151,8,5\n".toList {}).samples.map (fun s => s.time) = [0]) ∧
    ((txtLoop (2 * ("49150,8,5\n49151,8,6\n".toList : Str).length + 2) true
        "49150,8,5\n49151,8,6\n".toList {}).samples.reverse.map (fun s => s.time) =
      [49150, 49150]) := by
  refine ⟨by decide, ?_, ?_, rfl, by decide, by decide, by decide⟩
  · intro fuel lineptr st h
    simp only [txtLoop]
    rw [if_neg (not_lt.mpr h)]
    rfl
  · intro fuel lineptr st h
    simp only [txtLoop]
    rw [if_pos h]
    rfl

/-- Witness for C8: the clamp fires on a concrete overflowed line and not on
a concrete normal line. -/
theorem C8_timestamp_clamp_witness :
    txtLoop 1 true "49151,8,5\n".toList {} =
      txtLoop 0 false "49151,8,5\n".toList
        { scanCurVars {} "49151,8,5\n".toList with
          has_depth := false, has_setpoint := false, has_ndl := false,
          gaschange := 0,
          samples := [{ time := ({} : TxtSt).prev_time }],
          prev_time := ({} : TxtSt).prev_time } :=
  C8_timestamp_clamp.2.1 0 "49151,8,5\n".toList {} (by decide)



/-! ## C6 infrastructure -/

theorem strchrSuffix_count (c : Char) : ∀ s : Str,
    (strchrSuffix s c = none → s.count c = 0) ∧
    (∀ r, strchrSuffix s c = some r → ∃ t, r = c :: t ∧ s.count c = t.count c + 1) := by
  intro s
  induction s with
  | nil => exact ⟨fun _ => rfl, fun r h => by simp [strchrSuffix] at h⟩
  | cons a t ih =>
    constructor
    · intro h
      simp only [strchrSuffix] at h
      by_cases ha : a = c
      · rw [if_pos ha] at h; exact absurd h (by simp)
      · rw [if_neg ha] at h
        simp [List.count_cons, ha, ih.1 h, Ne.symm ha]
    · intro r h
      simp only [strchrSuffix] at h
      by_cases ha : a = c
      · rw [if_pos ha] at h
        refine ⟨t, ?_, ?_⟩
        · cases h; rw [ha]
        · simp [List.count_cons, ha]
      · rw [if_neg ha] at h
        obtain ⟨u, hu1, hu2⟩ := ih.2 r h
        exact ⟨u, hu1, by simp [List.count_cons, Ne.symm ha, hu2]⟩

theorem headersLoop_none : ∀ (n : Nat) (p : Str), p.count ',' < n → headersLoop n p = none := by
  intro n
  induction n with
  | zero => intro p h; omega
  | succ m ih =>
    intro p h
    simp only [headersLoop]
    cases hs : strchrSuffix p ',' with
    | none => rfl
    | some r =>
      obtain ⟨t, ht1, ht2⟩ := (strchrSuffix_count ',' p).2 r hs
      subst ht1
      have hm := ih t (by omega)
      simp [hm]

theorem sampleLoop_head : ∀ (fuel : Nat) (p : Str) (t : Int) (tv : Int × Frac),
    tv ∈ (sampleLoop fuel p t).head? → tv.1 = t := by
  intro fuel p t tv h
  match fuel with
  | 0 => simp [sampleLoop] at h
  | n + 1 =>
    simp only [sampleLoop] at h
    cases hs : strtodM p with
    | none => rw [hs] at h; simp at h
    | some vr =>
      obtain ⟨v, r⟩ := vr
      rw [hs] at h
      simp only [List.head?_cons, Option.mem_def, Option.some.injEq] at h
      rw [← h]

theorem sampleLoop_chain : ∀ (fuel : Nat) (p : Str) (t : Int),
    List.Chain' (fun a b => b.1 = a.1 + 1) (sampleLoop fuel p t) := by
  intro fuel
  induction fuel with
  | zero => intro p t; simp [sampleLoop]
  | succ n ih =>
    intro p t
    simp only [sampleLoop]
    cases hs : strtodM p with
    | none => simp
    | some vr =>
      obtain ⟨v, r⟩ := vr
      rw [List.chain'_cons']
      constructor
      · intro y hy
        split at hy
        · next r2 => rw [sampleLoop_head n _ (t + 1) y hy]
        · simp at hy
      · split
        · next r2 => exact ih r2 (t + 1)
        · simp

theorem sampleLoop_stop (fuel : Nat) (p : Str) (t : Int) (h : strtodM p = none) :
    sampleLoop (fuel + 1) p t = [] := by
  simp [sampleLoop, h]

theorem add_sample_data_time (s : PSample) (ty : csv_format) (v : Frac) :
    (add_sample_data s ty v).time = s.time := by
  cases ty <;> rfl

theorem c6_body (mem : Str) (ty : csv_format) (hs : List Str) (p : Str)
    (hh : headersLoop 8 mem = some (hs, p)) (hd : parse_date (hs.getD 2 []) ≠ 0) :
    try_to_open_csv mem ty =
      some { when := parse_date (hs.getD 2 []),
             number := (strtol (hs.getD 1 [])).1,
             samples := (sampleLoop (mem.length + 1) p 0).map (fun tv =>
               add_sample_data { time := tv.1 } ty tv.2),
             duration := (sampleLoop (mem.length + 1) p 0).length } := by
  have hd2 : ¬ parse_date (hs[2]?.getD []) = 0 := by
    simpa [List.getD_eq_getElem?_getD] using hd
  simp [try_to_open_csv, hh, hd2, List.getD_eq_getElem?_getD]

theorem c6_badheaders (mem : Str) (ty : csv_format) (h : mem.count ',' < 8) :
    try_to_open_csv mem ty = none := by
  simp [try_to_open_csv, headersLoop_none 8 mem h]

theorem c6_baddate (mem : Str) (ty : csv_format) (hs : List Str) (p : Str)
    (hh : headersLoop 8 mem = some (hs, p)) (hd : parse_date (hs.getD 2 []) = 0) :
    try_to_open_csv mem ty = none := by
  have hd2 : parse_date (hs[2]?.getD []) = 0 := by
    simpa [List.getD_eq_getElem?_getD] using hd
  simp [try_to_open_csv, hh, hd2]


/-! ## C6: the generic CSV decoder -/

/-- C6 (amended): the generic CSV decoder returns "not this format" (and
appends no dive) when the buffer holds fewer than 8 comma-terminated header
fields — each of the 8 headers must be followed by a comma — or when the
third header field fails to parse as a date; otherwise it appends exactly one
dive whose samples are the consecutive following tokens that parse as
floating-point values, at one-second intervals starting at time zero, and the
first non-parsing token ends the samples normally.  The date scanner accepts
the day immediately followed by the 3-letter month name (no separator), so
the amended example header is "1,2,01Jan2020 10:00:00,x,x,x,x,x,10,20,30",
which yields one dive (number 2) with 3 one-second-spaced samples, and a
non-numeric 4th sample value stops decoding without error. -/
theorem C6_generic_csv_decoder :
    (∀ (mem : Str) (ty : csv_format), mem.count ',' < 8 →
       try_to_open_csv mem ty = none) ∧
    (∀ (mem : Str) (ty : csv_format) (hs : List Str) (p : Str),
       headersLoop 8 mem = some (hs, p) → parse_date (hs.getD 2 []) = 0 →
       try_to_open_csv mem ty = none) ∧
    (∀ (mem : Str) (ty : csv_format) (hs : List Str) (p : Str),
       headersLoop 8 mem = some (hs, p) → parse_date (hs.getD 2 []) ≠ 0 →
       try_to_open_csv mem ty =
         some { when := parse_date (hs.getD 2 []),
                number := (strtol (hs.getD 1 [])).1,
                samples := (sampleLoop (mem.length + 1) p 0).map (fun tv =>
                  add_sample_data { time := tv.1 } ty tv.2),
                duration := (sampleLoop (mem.length + 1) p 0).length }) ∧
    (∀ (fuel : Nat) (p : Str) (t : Int) (tv : Int × Frac),
       tv ∈ (sampleLoop fuel p t).head? → tv.1 = t) ∧
    (∀ (fuel : Nat) (p : Str) (t : Int),
       List.Chain' (fun a b => b.1 = a.1 + 1) (sampleLoop fuel p t)) ∧
    (∀ (fuel : Nat) (p : Str) (t : Int), strtodM p = none →
       sampleLoop (fuel + 1) p t = []) ∧
    (∀ (s : PSample) (ty : csv_format) (v : Frac),
       (add_sample_data s ty v).time = s.time) ∧
    ((try_to_open_csv "1,2,01Jan2020 10:00:00,x,x,x,x,x,10,20,30".toList
        .CSV_DEPTH).map
      (fun c => (c.number, c.duration, c.samples.map PSample.time, c.when)) =
      some (2, 3, [0, 1, 2], utc_mktime 2020 0 1 10 0 0)) ∧
    ((try_to_open_csv "1,2,01Jan2020 10:00:00,x,x,x,x,x,10,20,30,abc".toList
        .CSV_DEPTH).map (fun c => (c.duration, c.samples.map PSample.time)) =
      some (3, [0, 1, 2])) :=
  ⟨c6_badheaders, c6_baddate, c6_body, sampleLoop_head, sampleLoop_chain,
   sampleLoop_stop, add_sample_data_time, by decide, by decide⟩

/-- Counterexample to C6 as stated: the spec's example header
"1,2,01-Jan-2020 10:00:00,x,x,x,x,x,10,20,30" does not yield a dive — the
date scanner reads the day and then compares the month name at the very next
byte, which is the dash separator, so the date fails to parse and the decoder
returns "not this format"; likewise a buffer with 8 header fields but only 7
commas fails, because every one of the 8 headers must be comma-terminated. -/
theorem C6_generic_csv_decoder_counterexample :
    try_to_open_csv "1,2,01-Jan-2020 10:00:00,x,x,x,x,x,10,20,30".toList
        .CSV_DEPTH = none ∧
    try_to_open_csv "1,2,01Jan2020 10:00:00,x,x,x,x,8".toList .CSV_DEPTH =
        none :=
  ⟨by decide, by decide⟩

/-- Witness for C6: a buffer with fewer than 8 commas is rejected, and the
sample loop stops normally at a non-numeric token. -/
theorem C6_generic_csv_decoder_witness :
    try_to_open_csv "a,b,c".toList .CSV_DEPTH = none ∧
    sampleLoop 5 "x".toList 0 = [] :=
  ⟨C6_generic_csv_decoder.1 "a,b,c".toList .CSV_DEPTH (by decide),
   C6_generic_csv_decoder.2.2.2.2.2.1 4 "x".toList 0 (by decide)⟩



/-! ## C9 infrastructure -/

theorem try_to_xslt_ok (mem fileContent tag : Str) (h : mem ≠ []) :
    try_to_xslt_open_csv mem fileContent tag = some (xsltWrapCore mem tag) := by
  unfold try_to_xslt_open_csv
  have hne : mem.isEmpty = false := by
    cases mem with
    | nil => exact absurd rfl h
    | cons a t => rfl
  simp [hne]

theorem lastOcc_none_iff (pat s : Str) :
    lastOcc pat s = none ↔ ∀ i, i ≤ s.length → ¬ pat.isPrefixOf (s.drop i) := by
  unfold lastOcc
  rw [List.max?_eq_none_iff]
  simp [List.filter_eq_nil_iff, List.mem_range, Nat.lt_succ_iff]

theorem lastOcc_last (pat s : Str) (j : Nat) (h : lastOcc pat s = some j) :
    pat.isPrefixOf (s.drop j) ∧
      ∀ i, i ≤ s.length → pat.isPrefixOf (s.drop i) → i ≤ j := by
  unfold lastOcc at h
  rw [List.max?_eq_some_iff (fun x => Nat.le_refl x) (fun x y => max_choice x y)
      (fun x y z => Nat.max_le)] at h
  obtain ⟨hmem, hmax⟩ := h
  have hm := List.mem_filter.mp hmem
  refine ⟨hm.2, ?_⟩
  intro i hi hp
  exact hmax i (List.mem_filter.mpr ⟨List.mem_range.mpr (by omega), hp⟩)

theorem seabearSplit_crlf (mem : Str) (i : Nat)
    (h : lastOcc "\r\n\r\n".toList mem = some i) :
    seabearSplit mem = some ("\r\n".toList, i + 4) := by
  unfold seabearSplit
  rw [h]

theorem seabearSplit_lf (mem : Str) (i : Nat)
    (h1 : lastOcc "\r\n\r\n".toList mem = none)
    (h2 : lastOcc "\n\n".toList mem = some i) :
    seabearSplit mem = some ("\n".toList, i + 2) := by
  unfold seabearSplit
  rw [h1, h2]

theorem seabearSplit_none (mem : Str)
    (h1 : lastOcc "\r\n\r\n".toList mem = none)
    (h2 : lastOcc "\n\n".toList mem = none) :
    seabearSplit mem = none := by
  unfold seabearSplit
  rw [h1, h2]

theorem seabear_fail (mem : Str) (ps : Params) (d t : Str)
    (h : seabearSplit mem = none) :
    parse_seabear_csv_file mem ps d t = none := by
  simp [parse_seabear_csv_file, h]

theorem seabear_body (mem : Str) (ps : Params) (d t NL : Str) (bs : Nat)
    (h : seabearSplit mem = some (NL, bs)) (hb : mem.drop bs ≠ []) :
    parse_seabear_csv_file mem ps d t =
      some (xsltWrapCore (mem.drop bs) "csv".toList,
            seabearDateFix mem NL
              (xml_params_add (xml_params_add ps "date" d) "time" t)) := by
  simp [parse_seabear_csv_file, h, try_to_xslt_ok _ _ _ hb]


/-! ## C9: the metadata-header decoder -/

/-- C9: the Seabear decoder takes as body the text after the last
double-blank-line separator, trying CRLF pairs first and falling back to LF
pairs only when no CRLF pair occurs anywhere; a buffer with no blank-line
separator of either style fails cleanly (negative return, no dive appended).
The first two conjuncts characterize the last-occurrence search; the
concrete runs show the failure, the CRLF preference, and the LF fallback. -/
theorem C9_seabear_separator :
    (∀ pat s : Str,
       lastOcc pat s = none ↔ ∀ i, i ≤ s.length → ¬ pat.isPrefixOf (s.drop i)) ∧
    (∀ (pat s : Str) (j : Nat), lastOcc pat s = some j →
       pat.isPrefixOf (s.drop j) ∧
         ∀ i, i ≤ s.length → pat.isPrefixOf (s.drop i) → i ≤ j) ∧
    (∀ (mem : Str) (i : Nat), lastOcc "\r\n\r\n".toList mem = some i →
       seabearSplit mem = some ("\r\n".toList, i + 4)) ∧
    (∀ (mem : Str) (i : Nat), lastOcc "\r\n\r\n".toList mem = none →
       lastOcc "\n\n".toList mem = some i →
       seabearSplit mem = some ("\n".toList, i + 2)) ∧
    (∀ mem : Str, lastOcc "\r\n\r\n".toList mem = none →
       lastOcc "\n\n".toList mem = none → seabearSplit mem = none) ∧
    (∀ (mem : Str) (ps : Params) (d t : Str), seabearSplit mem = none →
       parse_seabear_csv_file mem ps d t = none) ∧
    (∀ (mem : Str) (ps : Params) (d t NL : Str) (bs : Nat),
       seabearSplit mem = some (NL, bs) → mem.drop bs ≠ [] →
       parse_seabear_csv_file mem ps d t =
         some (xsltWrapCore (mem.drop bs) "csv".toList,
               seabearDateFix mem NL
                 (xml_params_add (xml_params_add ps "date" d) "time" t))) ∧
    parse_seabear_csv_file "a\nb".toList [] [] [] = none ∧
    ((parse_seabear_csv_file "x\n\ny\r\n\r\nz".toList [] [] []).map Prod.fst =
      some "<csv>z</csv>".toList) ∧
    ((parse_seabear_csv_file "x\n\ny\n\nz".toList [] [] []).map Prod.fst =
      some "<csv>z</csv>".toList) :=
  ⟨lastOcc_none_iff, lastOcc_last, seabearSplit_crlf, seabearSplit_lf,
   seabearSplit_none, seabear_fail, seabear_body, by decide, by decide,
   by decide⟩

/-- Witness for C9: a buffer with no blank-line separator of either style is
rejected cleanly. -/
theorem C9_seabear_separator_witness :
    seabearSplit "hello".toList = none ∧
    parse_seabear_csv_file "hello".toList [] [] [] = none :=
  ⟨C9_seabear_separator.2.2.2.2.1 "hello".toList (by decide) (by decide),
   C9_seabear_separator.2.2.2.2.2.1 "hello".toList [] [] [] (by decide)⟩

end Subsurface
